import Mathlib

/-!
Verification of the sync-orchestration and entity-identity subsystem of the
wordlift-gemini-cli-extension repository against its natural-language
specification.

Python strings are modelled as `List Char` (named `Str`) in the identifier
generator, and as Lean `String` at the level of entity records.  JSON values
are modelled by the inductive `JVal`; Python dicts are insertion-ordered
association lists with unique keys.  Fallible Python code (functions that can
raise) is modelled with `Except Unit`: the payload of an exception is never
observed by the code under study, so the error type is `Unit`.
-/

namespace WLSpec

/-- Model of a Python string: a list of characters. -/
abbrev Str := List Char

/-! ## id_generator.py -/

/-- A character counted as a digit by the regex `\d` (ASCII range; the code
only ever feeds ASCII trade codes to these helpers). -/
def isDigitChar (c : Char) : Bool := '0' ≤ c && c ≤ '9'

/-- `re.sub(r'\D', '', s)`: keep only the digit characters. -/
def stripNonDigits (s : Str) : Str := s.filter isDigitChar

/-- `int(c)` for a digit character. -/
def digitVal (c : Char) : Nat := c.toNat - 48

/-- Weighted GS1 sum: digits given right-to-left, weights alternating 3,1,3,…
starting with 3 at the rightmost position (`w = true` means weight 3). -/
def gs1Sum (w : Bool) : List Nat → Nat
  | [] => 0
  | d :: ds => (if w then 3 * d else d) + gs1Sum (!w) ds

/-- `validate_gtin_check_digit(gtin)`: requires length 14; computes the GS1
mod-10 check over all but the last digit and compares with the last digit.
`int()` would raise on a non-digit character in Python; in this development
the function is only ever applied to all-digit strings (`normalize_gtin`
strips non-digits first), so digit conversion is modelled totally. -/
def validate_gtin_check_digit (gtin : Str) : Bool :=
  if gtin.length = 14 then
    let digits := (gtin.dropLast).map digitVal
    let total := gs1Sum true digits.reverse
    let calculated := (10 - total % 10) % 10
    match gtin.getLast? with
    | some c => calculated == digitVal c
    | none => false
  else
    false

/-- `str.zfill(14)` on an unsigned digit string: left-pad with zeros. -/
def zfill14 (s : Str) : Str := List.replicate (14 - s.length) '0' ++ s

/-- Error raised by `normalize_gtin` (`ValueError` with two distinct
messages). -/
inductive GtinError
  | invalidFormat (len : Nat)
  | invalidChecksum (gtin14 : Str)
  deriving Repr, DecidableEq

/-- `normalize_gtin(gtin)`: strip non-digits, check the length is one of
8/12/13/14, left-pad to 14 digits, validate the check digit. -/
def normalize_gtin (gtin : Str) : Except GtinError Str :=
  let g := stripNonDigits gtin
  if g.length = 8 ∨ g.length = 12 ∨ g.length = 13 ∨ g.length = 14 then
    let gtin14 := zfill14 g
    if validate_gtin_check_digit gtin14 then
      .ok gtin14
    else
      .error (.invalidChecksum gtin14)
  else
    .error (.invalidFormat g.length)

/-- `str.rstrip('/')`: remove all trailing slash characters. -/
def rstripSlash (s : Str) : Str :=
  ((s.reverse.dropWhile (fun c => c == '/')).reverse)

/-- `generate_product_id(dataset_uri, gtin, serial, lot)`: trims trailing
slashes from the base URI, normalizes the trade code and composes the GS1
Digital Link path.  `if serial:` / `if lot:` are Python truthiness tests:
an absent or empty serial/lot is skipped. -/
def generate_product_id (dataset_uri : Str) (gtin : Str)
    (serial : Option Str := none) (lot : Option Str := none) :
    Except GtinError Str := do
  let base := rstripSlash dataset_uri
  let gtin14 ← normalize_gtin gtin
  let path := base ++ ('/' :: '0' :: '1' :: '/' :: gtin14)
  let path := match serial with
    | some s => if s ≠ [] then path ++ ('/' :: '2' :: '1' :: '/' :: s) else path
    | none => path
  let path := match lot with
    | some l => if l ≠ [] then path ++ ('/' :: '1' :: '0' :: '/' :: l) else path
    | none => path
  return path

/-- ASCII case-folding, modelling `str.lower()` (the Unicode case mappings of
Python agree with this on the ASCII range; every non-ASCII character is
removed later by the slug pipeline regardless of its case). -/
def asciiLower (c : Char) : Char :=
  if 'A' ≤ c ∧ c ≤ 'Z' then Char.ofNat (c.toNat + 32) else c

/-- A character matched by the regex class `[\s_]` (ASCII whitespace range of
`\s`, plus underscore). -/
def isWsOrUnderscore (c : Char) : Bool :=
  c == ' ' || c == '\t' || c == '\n' || c == '\r' ||
  c == '\x0b' || c == '\x0c' || c == '_'

/-- `re.sub(r'[\s_]+', '-', s)`: replace each maximal run of whitespace or
underscore characters with a single hyphen.  The flag records whether the
previous character was part of such a run. -/
def subWsRun (inRun : Bool) : Str → Str
  | [] => []
  | c :: cs =>
    if isWsOrUnderscore c then
      if inRun then subWsRun true cs else '-' :: subWsRun true cs
    else
      c :: subWsRun false cs

/-- A character kept by `re.sub(r'[^a-z0-9-]', '', s)`. -/
def isSlugChar (c : Char) : Bool :=
  ('a' ≤ c && c ≤ 'z') || ('0' ≤ c && c ≤ '9') || c == '-'

/-- `re.sub(r'-+', '-', s)`: collapse each maximal run of hyphens to a single
hyphen. -/
def collapseHyphens (inRun : Bool) : Str → Str
  | [] => []
  | c :: cs =>
    if c = '-' then
      if inRun then collapseHyphens true cs else '-' :: collapseHyphens true cs
    else
      c :: collapseHyphens false cs

/-- `str.strip('-')`: remove leading and trailing hyphens. -/
def stripHyphens (s : Str) : Str :=
  ((s.dropWhile (fun c => c = '-')).reverse.dropWhile (fun c => c = '-')).reverse

/-- `generate_slug(text)`: lowercase, whitespace/underscore runs to hyphen,
drop characters outside `[a-z0-9-]`, collapse hyphen runs, strip hyphens. -/
def generate_slug (text : Str) : Str :=
  let slug := text.map asciiLower
  let slug := subWsRun false slug
  let slug := slug.filter isSlugChar
  let slug := collapseHyphens false slug
  stripHyphens slug

/-- `generate_entity_id(dataset_uri, entity_class, natural_key)`. -/
def generate_entity_id (dataset_uri : Str) (entity_class : Str)
    (natural_key : Str) : Str :=
  rstripSlash dataset_uri ++ '/' :: (entity_class.map asciiLower) ++
    '/' :: generate_slug natural_key

/-- One attempt of the regex `/01/(\d{14})` at the head of the string: succeed
when the string starts with the literal `/01/` followed by at least 14 digit
characters, returning those 14 digits. -/
def gtinMatchAt : Str → Option Str
  | '/' :: '0' :: '1' :: '/' :: rest =>
    let d := rest.take 14
    if d.length = 14 && d.all isDigitChar then some d else none
  | _ => none

/-- `re.search(r'/01/(\d{14})', url)` followed by `.group(1)`: scan left to
right for the first position where the pattern matches. -/
def extract_gtin_from_url : Str → Option Str
  | [] => none
  | c :: cs =>
    match gtinMatchAt (c :: cs) with
    | some g => some g
    | none => extract_gtin_from_url cs

/-- `is_product_url(url)`. -/
def is_product_url (url : Str) : Bool :=
  (extract_gtin_from_url url).isSome

/-! ## JSON values and Python dicts

Floating-point numbers do not occur in the claims under study, so JSON
numbers are modelled by `Int`. -/

/-- A JSON value. -/
inductive JVal where
  | jnull
  | jbool (b : Bool)
  | jnum (n : Int)
  | jstr (s : String)
  | jarr (elems : List JVal)
  | jobj (fields : List (String × JVal))

/-- A Python dict with string keys: an insertion-ordered association list.
All dict-building code below preserves key uniqueness. -/
abbrev Obj := List (String × JVal)

mutual

/-- Python structural equality `==` on JSON values. -/
def JVal.beq : JVal → JVal → Bool
  | .jnull, .jnull => true
  | .jbool a, .jbool b => a == b
  | .jnum a, .jnum b => a == b
  | .jstr a, .jstr b => a == b
  | .jarr a, .jarr b => JVal.beqList a b
  | .jobj a, .jobj b => JVal.beqObj a b
  | _, _ => false

/-- Pointwise `==` on lists of JSON values. -/
def JVal.beqList : List JVal → List JVal → Bool
  | [], [] => true
  | a :: as, b :: bs => JVal.beq a b && JVal.beqList as bs
  | _, _ => false

/-- Pointwise `==` on dicts (Python dict equality is order-insensitive, but
every comparison in the code under study is between dicts built in the same
key order, so ordered comparison coincides). -/
def JVal.beqObj : Obj → Obj → Bool
  | [], [] => true
  | (k, v) :: as, (k', v') :: bs => k == k' && JVal.beq v v' && JVal.beqObj as bs
  | _, _ => false

end

/-- `d.get(k)` / `d[k]` lookup: first (and only) binding of the key. -/
def getO (o : Obj) (k : String) : Option JVal :=
  (o.find? (fun p => p.1 == k)).map (·.2)

/-- `k in d`. -/
def hasKey (o : Obj) (k : String) : Bool :=
  (getO o k).isSome

/-- `d.get(k, default)`. -/
def getD (o : Obj) (k : String) (dflt : JVal) : JVal :=
  (getO o k).getD dflt

/-- `d[k] = v`: replace the existing binding in place, else append. -/
def setK (o : Obj) (k : String) (v : JVal) : Obj :=
  if hasKey o k then
    o.map (fun p => if p.1 == k then (k, v) else p)
  else
    o ++ [(k, v)]

/-- Python truthiness of a JSON value. -/
def pyTruthy : JVal → Bool
  | .jnull => false
  | .jbool b => b
  | .jnum n => n != 0
  | .jstr s => s ≠ ""
  | .jarr l => !l.isEmpty
  | .jobj l => !l.isEmpty

/-- `str(v)` / f-string rendering of a JSON value.  Containers render as
Python reprs; no claim observes the rendering of a container, so it is
abbreviated here. -/
def pyStr : JVal → String
  | .jnull => "None"
  | .jbool true => "True"
  | .jbool false => "False"
  | .jnum n => toString n
  | .jstr s => s
  | .jarr _ => "[...]"
  | .jobj _ => "..."

/-- Substring test, modelling Python `needle in hay` on strings. -/
def strContains (hay needle : String) : Bool :=
  decide (needle.toList <:+: hay.toList)

/-- `s.startswith(p)`. -/
def pyStartsWith (s p : String) : Bool :=
  p.toList.isPrefixOf s.toList

/-! ## shacl_validator.py -/

/-- The entity types with a default SHACL shape
(`SHACLValidator._load_default_shapes`), in table order. -/
def shapeTypes : List String :=
  ["Product", "Organization", "Person", "WebPage", "Offer", "Brand"]

/-- The `required` field list of each default shape. -/
def requiredOf : String → List String
  | "Product" => ["@id", "@type", "name", "gtin14"]
  | "Organization" => ["@id", "@type", "name"]
  | "Person" => ["@id", "@type", "name"]
  | "WebPage" => ["@id", "@type", "url", "name"]
  | "Offer" => ["@type", "price", "priceCurrency"]
  | "Brand" => ["@id", "@type", "name"]
  | _ => []

/-- The `recommended` field list of each default shape. -/
def recommendedOf : String → List String
  | "Product" => ["description", "brand", "offers", "image"]
  | "Organization" => ["url", "logo", "description"]
  | "Person" => ["jobTitle", "email"]
  | "WebPage" => ["description", "datePublished"]
  | "Offer" => ["availability", "url"]
  | "Brand" => ["logo", "url"]
  | _ => []

/-- The keys of the `constraints` dict of each default shape, in insertion
order. -/
def constraintFieldsOf : String → List String
  | "Product" => ["@type", "gtin14", "name", "offers"]
  | "Organization" => ["@type", "name", "url"]
  | "Person" => ["@type", "name"]
  | "WebPage" => ["@type", "url", "name"]
  | "Offer" => ["@type", "price", "priceCurrency", "availability"]
  | "Brand" => ["@type", "name"]
  | _ => []

/-- The constraint lambda of shape `t`, field `f`, applied to value `v`.
All constraint lambdas in the source are total (each starts with an
`isinstance` guard or compares with `==`), so the `try/except` around the
constraint call in `validate` can never fire.  `isinstance(v, (str, int,
float))` is true for booleans in Python (bool subclasses int), hence the
`price` case accepts `jbool`. -/
def shaclConstraint : String → String → JVal → Bool
  | "Product", "@type", v => JVal.beq v (.jstr "Product")
  | "Product", "gtin14", v =>
    match v with
    | .jstr s => s.length == 14 && s.toList.all isDigitChar
    | _ => false
  | "Product", "offers", v =>
    match v with
    | .jobj o =>
      match getO o "@type" with
      | some t => JVal.beq t (.jstr "Offer")
      | none => false
    | _ => false
  | "Organization", "@type", v => JVal.beq v (.jstr "Organization")
  | "Organization", "url", v =>
    match v with
    | .jstr s => pyStartsWith s "http"
    | _ => false
  | "Person", "@type", v => JVal.beq v (.jstr "Person")
  | "WebPage", "@type", v =>
    JVal.beq v (.jstr "WebPage") || JVal.beq v (.jstr "Article") ||
      JVal.beq v (.jstr "BlogPosting")
  | "WebPage", "url", v =>
    match v with
    | .jstr s => pyStartsWith s "http"
    | _ => false
  | "Offer", "@type", v => JVal.beq v (.jstr "Offer")
  | "Offer", "price", v =>
    match v with
    | .jstr _ => true
    | .jnum _ => true
    | .jbool _ => true
    | _ => false
  | "Offer", "priceCurrency", v =>
    match v with
    | .jstr s => s.length == 3
    | _ => false
  | "Offer", "availability", v =>
    match v with
    | .jstr s => strContains s "schema.org"
    | _ => false
  | "Brand", "@type", v => JVal.beq v (.jstr "Brand")
  | _, "name", v =>
    match v with
    | .jstr s => s.length != 0
    | _ => false
  | _, _, _ => true

/-- Errors produced by the `@context` check at the top of `validate`. -/
def contextErrors (fields : Obj) : List String :=
  match getO fields "@context" with
  | none => ["Missing @context"]
  | some v =>
    if JVal.beq v (.jstr "https://schema.org") ||
        JVal.beq v (.jstr "http://schema.org") then []
    else ["Invalid @context: " ++ pyStr v]

/-- Errors from the required-field loop of `validate`. -/
def requiredErrors (t : String) (fields : Obj) : List String :=
  (requiredOf t).filterMap fun f =>
    if hasKey fields f then none else some ("Missing required field: " ++ f)

/-- Errors from the recommended-field loop in strict mode. -/
def strictRecErrors (t : String) (fields : Obj) : List String :=
  (recommendedOf t).filterMap fun f =>
    if hasKey fields f then none
    else some ("Missing recommended field (strict mode): " ++ f)

/-- Warnings from the recommended-field loop in non-strict mode. -/
def recWarnings (t : String) (fields : Obj) : List String :=
  (recommendedOf t).filterMap fun f =>
    if hasKey fields f then none else some ("Missing recommended field: " ++ f)

/-- Errors from the constraint loop of `validate`.  (The source message
wraps the field name in single quotes; the quotes are omitted from the
modelled message text.) -/
def constraintErrors (t : String) (fields : Obj) : List String :=
  (constraintFieldsOf t).filterMap fun f =>
    match getO fields f with
    | some v =>
      if shaclConstraint t f v then none
      else some ("Constraint failed for field " ++ f ++ ": " ++ pyStr v)
    | none => none

/-- The `(is_valid, errors, warnings)` triple returned by `validate`. -/
structure VRes where
  valid : Bool
  errors : List String
  warnings : List String

theorem getO_sizeOf_lt {o : Obj} {k : String} {v : JVal}
    (h : getO o k = some v) : sizeOf v < sizeOf o := by
  unfold getO at h
  cases hf : o.find? (fun p => p.1 == k) with
  | none => simp [hf] at h
  | some p =>
    rw [hf] at h
    have hm := List.mem_of_find?_eq_some hf
    have hs := List.sizeOf_lt_of_mem hm
    obtain ⟨a, b⟩ := p
    have hb : b = v := by simpa using h
    subst hb
    simp only [Prod.mk.sizeOf_spec] at hs
    omega

/-- The `@id` error list of `validate` (empty when no `@id`; `.error` models
the `AttributeError` Python raises on `.startswith` of a non-string id). -/
def idErrorsOf (t : String) (fields : Obj) : Except Unit (List String) :=
  match getO fields "@id" with
  | none => pure []
  | some (.jstr iri) =>
    pure ((if pyStartsWith iri "http" then []
           else ["@id must be a valid HTTP(S) IRI: " ++ iri]) ++
          (if t == "Product" && !(strContains iri "/01/") then
            ["Product @id should follow GS1 Digital Link format: " ++ iri]
           else []))
  | some _ => .error ()

/-- The body of `validate` for a type `t` with a shape in the table, given
the already-computed (effectful) results of the two nested Product
validations (`offRes`/`brRes` are each the pair of prefixed errors and
prefixed warnings).  The error list accumulates in source order: context,
required, recommended (strict), constraints, nested offers, nested brand,
`@id`; the pure error lists commute with the nested effects, so computing
them before binding `offRes`/`brRes` is the same as the interleaved source
order. -/
def validateShapeWith (fields : Obj) (strict : Bool) (t : String)
    (offRes brRes : Except Unit (List String × List String)) :
    Except Unit VRes := do
  let errs1 := contextErrors fields ++ requiredErrors t fields ++
    (if strict then strictRecErrors t fields else []) ++
    constraintErrors t fields
  let warns1 := if strict then [] else recWarnings t fields
  let o ← offRes
  let b ← brRes
  let idErrs ← idErrorsOf t fields
  let errs := errs1 ++ o.1 ++ b.1 ++ idErrs
  pure ⟨errs.isEmpty, errs, warns1 ++ o.2 ++ b.2⟩

/-- Prefix every error of an invalid nested result, and every warning, with
the sub-entity label (`"Offer: "` / `"Brand: "`). -/
def prefixNested (label : String) (r : VRes) : List String × List String :=
  (if r.valid then [] else r.errors.map (fun e => label ++ e),
   r.warnings.map (fun w => label ++ w))

/-- `SHACLValidator.validate(entity, strict)`, with an explicit recursion
bound: the recursion of the source (into the `offers` and `brand`
sub-objects of a Product) strictly decreases the entity size, so `validate`
below instantiates `fuel := JVal.jsize entity` and the zero-fuel branch is
unreachable.  A non-dict argument raises in Python (`in` on a non-container,
or `.get` on a non-dict), modelled by `.error`; likewise a list- or
dict-valued `@type` (unhashable dict-membership probe) and a non-string
`@id` (no `.startswith`). -/
def validateF (fuel : Nat) (entity : JVal) (strict : Bool) : Except Unit VRes :=
  match entity with
  | .jobj fields =>
    match getO fields "@type" with
    | none => .ok ⟨false, contextErrors fields ++ ["Missing @type"], []⟩
    | some tv =>
      if pyTruthy tv = false then
        .ok ⟨false, contextErrors fields ++ ["Missing @type"], []⟩
      else
        match tv with
        | .jarr _ | .jobj _ => .error ()
        | .jstr t =>
          if t ∈ shapeTypes then
            validateShapeWith fields strict t
              (if t == "Product" then
                match getO fields "offers" with
                | some off =>
                  match fuel with
                  | 0 => .error ()
                  | f + 1 => do
                    let r ← validateF f off strict
                    pure (prefixNested "Offer: " r)
                | none => pure ([], [])
              else pure ([], []))
              (if t == "Product" then
                match getO fields "brand" with
                | some (.jobj b) =>
                  match fuel with
                  | 0 => .error ()
                  | f + 1 => do
                    let r ← validateF f (.jobj b) strict
                    pure (prefixNested "Brand: " r)
                | some _ => pure ([], [])
                | none => pure ([], [])
              else pure ([], []))
          else
            .ok ⟨(contextErrors fields).isEmpty, contextErrors fields,
              ["No SHACL shape defined for type: " ++ t]⟩
        | _ =>
          .ok ⟨(contextErrors fields).isEmpty, contextErrors fields,
            ["No SHACL shape defined for type: " ++ pyStr tv]⟩
  | _ => .error ()

mutual

/-- Executable size of a JSON value (used as the recursion fuel of
`validate`). -/
def JVal.jsize : JVal → Nat
  | .jnull => 1
  | .jbool _ => 1
  | .jnum _ => 1
  | .jstr _ => 1
  | .jarr l => 1 + JVal.jsizeList l
  | .jobj l => 1 + JVal.jsizeObj l

/-- Summed size of a list of JSON values. -/
def JVal.jsizeList : List JVal → Nat
  | [] => 0
  | v :: vs => JVal.jsize v + JVal.jsizeList vs + 1

/-- Summed size of a dict. -/
def JVal.jsizeObj : Obj → Nat
  | [] => 0
  | p :: vs => JVal.jsize p.2 + JVal.jsizeObj vs + 1

end

/-- `SHACLValidator.validate(entity, strict)`: `validateF` with enough fuel
for the whole entity. -/
def validate (entity : JVal) (strict : Bool) : Except Unit VRes :=
  validateF (JVal.jsize entity) entity strict

/-- One row of the `validate_batch` result. -/
structure EntityRow where
  index : Nat
  idv : JVal
  tyv : JVal
  valid : Bool
  errors : List String
  warnings : List String

/-- Aggregate result of `validate_batch`. -/
structure BatchRes where
  total : Nat
  validCount : Nat
  invalidCount : Nat
  rows : List EntityRow

/-- `entity.get("@id", "unknown")` for a row (only reached for dict
entities: `validate` has already raised otherwise). -/
def entityGetD (e : JVal) (k : String) : JVal :=
  match e with
  | .jobj f => getD f k (.jstr "unknown")
  | _ => .jstr "unknown"

/-- The per-entity loop of `validate_batch`, carrying the running index. -/
def batchRows (strict : Bool) : Nat → List JVal → Except Unit (List EntityRow)
  | _, [] => pure []
  | idx, e :: es => do
    let r ← validate e strict
    let rest ← batchRows strict (idx + 1) es
    pure (⟨idx, entityGetD e "@id", entityGetD e "@type",
           r.valid, r.errors, r.warnings⟩ :: rest)

/-- `SHACLValidator.validate_batch(entities, strict)`. -/
def validate_batch (entities : List JVal) (strict : Bool) :
    Except Unit BatchRes := do
  let rows ← batchRows strict 0 entities
  pure ⟨entities.length, (rows.filter (·.valid)).length,
        (rows.filter (fun r => !r.valid)).length, rows⟩

/-! ## entity_builder.py -/

/-- String-level `str.rstrip('/')`. -/
def rstripS (s : String) : String := (rstripSlash s.toList).asString

/-- String-level `generate_entity_id`. -/
def generate_entity_idS (dataset_uri cls nk : String) : String :=
  (generate_entity_id dataset_uri.toList cls.toList nk.toList).asString

/-- Python `key in container`: dict-key membership, substring test on a
string, element membership on a list; raises `TypeError` on a
non-container. -/
def pyContains (container : JVal) (key : String) : Except Unit Bool :=
  match container with
  | .jobj o => .ok (hasKey o key)
  | .jstr s => .ok (strContains s key)
  | .jarr a => .ok (a.any (fun e => JVal.beq e (.jstr key)))
  | _ => .error ()

/-- Python `container[key]` with a string key: dict lookup (`KeyError` when
absent); every other container raises (`TypeError`). -/
def pySubscript (container : JVal) (key : String) : Except Unit JVal :=
  match container with
  | .jobj o =>
    match getO o key with
    | some v => .ok v
    | none => .error ()
  | _ => .error ()

/-- The `availability_map` lookup with its
`f'https://schema.org/{availability}'` default. -/
def availabilityMap (s : String) : String :=
  match s with
  | "InStock" => "https://schema.org/InStock"
  | "OutOfStock" => "https://schema.org/OutOfStock"
  | "PreOrder" => "https://schema.org/PreOrder"
  | "Discontinued" => "https://schema.org/Discontinued"
  | _ => "https://schema.org/" ++ s

/-- `EntityBuilder._build_offer(offer_data)`.  The parameter may be any JSON
value in principle; `'price' in offer_data` raises on non-containers and
`offer_data['price']` raises on non-dicts, which the model reflects through
`pyContains`/`pySubscript`.  A non-string availability raises at
`.startswith`. -/
def build_offer (offer_data : JVal) : Except Unit Obj := do
  let offer : Obj := [("@type", .jstr "Offer")]
  let hasPrice ← pyContains offer_data "price"
  let offer ←
    if hasPrice then do
      let v ← pySubscript offer_data "price"
      pure (setK offer "price" (.jstr (pyStr v)))
    else pure offer
  let hasCur ← pyContains offer_data "priceCurrency"
  let offer ←
    if hasCur then do
      let v ← pySubscript offer_data "priceCurrency"
      pure (setK offer "priceCurrency" v)
    else pure offer
  let hasAvail ← pyContains offer_data "availability"
  let offer ←
    if hasAvail then do
      let v ← pySubscript offer_data "availability"
      match v with
      | .jstr s =>
        if !(pyStartsWith s "http") then
          pure (setK offer "availability" (.jstr (availabilityMap s)))
        else
          pure (setK offer "availability" (.jstr s))
      | _ => .error ()
    else pure offer
  let hasUrl ← pyContains offer_data "url"
  let offer ←
    if hasUrl then do
      let v ← pySubscript offer_data "url"
      pure (setK offer "url" v)
    else pure offer
  let hasSeller ← pyContains offer_data "seller"
  let offer ←
    if hasSeller then do
      let v ← pySubscript offer_data "seller"
      pure (setK offer "seller" v)
    else pure offer
  pure offer

/-- `EntityBuilder._build_brand(brand_data)` on a builder with no reuse
manager attached (`create_product_from_scraped_data` constructs
`EntityBuilder(dataset_uri)`, so the reuse delegation branch is never taken
on the paths studied here).  A dict brand without `@id` whose `name` is not
a string raises inside `generate_slug` (`.lower()` on a non-string). -/
def build_brand (ds : String) (brand_data : JVal) : Except Unit JVal :=
  match brand_data with
  | .jstr s =>
    pure (.jobj [("@type", .jstr "Brand"),
                 ("@id", .jstr (generate_entity_idS ds "brand" s)),
                 ("name", .jstr s)])
  | .jobj d => do
    let d ←
      if !(hasKey d "@id") && hasKey d "name" then
        match getO d "name" with
        | some (.jstr n) =>
          pure (setK d "@id" (.jstr (generate_entity_idS ds "brand" n)))
        | some _ => .error ()
        | none => pure d
      else pure d
    let d := if !(hasKey d "@type") then setK d "@type" (.jstr "Brand") else d
    pure (.jobj d)
  | v => pure v

/-- The trailing `additional_fields` copy loop of `build_product`. -/
def additionalFields : List String :=
  ["mpn", "model", "color", "size", "weight", "width", "height", "depth"]

/-- `EntityBuilder.build_product(data)` with the builder's stored (already
slash-stripped) dataset URI `ds`.  A missing `gtin` key raises `ValueError`;
a non-string `gtin` raises inside `re.sub`; an invalid trade code raises out
of `generate_product_id`.  The serial/lot arguments are pre-rendered to
`Option Str`: a falsy serial/lot is dropped here exactly as the `if serial:`
/ `if lot:` truthiness tests inside `generate_product_id` would drop it. -/
def build_product (ds : String) (data : Obj) : Except Unit Obj := do
  if !(hasKey data "gtin") then .error ()
  else
    match getO data "gtin" with
    | some (.jstr g) => do
      let serialArg : Option Str :=
        match getO data "serial" with
        | some v => if pyTruthy v then some (pyStr v).toList else none
        | none => none
      let lotArg : Option Str :=
        match getO data "lot" with
        | some v => if pyTruthy v then some (pyStr v).toList else none
        | none => none
      let pid ←
        match generate_product_id ds.toList g.toList serialArg lotArg with
        | .ok p => pure p.asString
        | .error _ => .error ()
      let gtin14 ←
        match normalize_gtin g.toList with
        | .ok x => pure x.asString
        | .error _ => .error ()
      let entity : Obj := [("@context", .jstr "https://schema.org"),
                           ("@type", .jstr "Product"),
                           ("@id", .jstr pid),
                           ("gtin14", .jstr gtin14)]
      let entity := if hasKey data "name" then
          setK entity "name" (getD data "name" .jnull) else entity
      let entity := if hasKey data "description" then
          setK entity "description" (getD data "description" .jnull) else entity
      let entity := if hasKey data "sku" then
          setK entity "sku" (getD data "sku" .jnull) else entity
      let entity ←
        if hasKey data "brand" then do
          let b ← build_brand ds (getD data "brand" .jnull)
          pure (setK entity "brand" b)
        else pure entity
      let entity :=
        if hasKey data "image" then
          match getO data "image" with
          | some (.jarr l) => setK entity "image" (.jarr l)
          | some v => setK entity "image" (.jarr [v])
          | none => entity
        else entity
      let entity ←
        if hasKey data "offers" then do
          let o ← build_offer (getD data "offers" .jnull)
          pure (setK entity "offers" (.jobj o))
        else if hasKey data "price" then do
          let o ← build_offer (.jobj [
            ("price", getD data "price" .jnull),
            ("priceCurrency",
              getD data "currency" (getD data "priceCurrency" (.jstr "USD"))),
            ("availability",
              getD data "availability" (.jstr "https://schema.org/InStock"))])
          pure (setK entity "offers" (.jobj o))
        else pure entity
      let entity :=
        if hasKey data "aggregateRating" then
          setK entity "aggregateRating" (getD data "aggregateRating" .jnull)
        else if hasKey data "rating" || hasKey data "ratingValue" then
          setK entity "aggregateRating" (.jobj [
            ("@type", .jstr "AggregateRating"),
            ("ratingValue", getD data "rating" (getD data "ratingValue" .jnull)),
            ("reviewCount",
              getD data "reviewCount" (getD data "review_count" .jnull))])
        else entity
      let entity := additionalFields.foldl (fun e f =>
        if hasKey data f then setK e f (getD data f .jnull) else e) entity
      pure entity
    | _ => .error ()

/-- The ordered synonym table of `create_product_from_scraped_data`. -/
def fieldMappings : List (String × List String) :=
  [("name", ["name", "title", "product_name"]),
   ("description", ["description", "product_description"]),
   ("sku", ["sku", "product_sku"]),
   ("brand", ["brand", "product_brand", "manufacturer"]),
   ("image", ["image", "product_image", "images"]),
   ("price", ["price", "product_price"]),
   ("currency", ["currency", "priceCurrency", "product_currency"]),
   ("availability", ["availability", "product_availability", "stock_status"]),
   ("rating", ["rating", "ratingValue", "product_rating"]),
   ("reviewCount", ["reviewCount", "review_count", "product_review_count"])]

/-- `create_product_from_scraped_data(dataset_uri, scraped_data)`: first
present-and-truthy trade-code synonym wins, then each target field takes its
first present-and-truthy synonym, then `build_product` (on a builder whose
stored dataset URI is slash-stripped at construction). -/
def create_product_from_scraped_data (dataset_uri : String) (scraped : Obj) :
    Except Unit Obj :=
  let ds := rstripS dataset_uri
  let gtinSynonyms := ["gtin", "gtin13", "gtin14", "gtin12", "gtin8", "ean", "upc"]
  let pd : Obj :=
    match gtinSynonyms.find? (fun f => (getO scraped f).any pyTruthy) with
    | some f => [("gtin", getD scraped f .jnull)]
    | none => []
  if !(hasKey pd "gtin") then .error ()
  else
    let pd := fieldMappings.foldl (fun pd m =>
      match m.2.find? (fun sf => (getO scraped sf).any pyTruthy) with
      | some sf => setK pd m.1 (getD scraped sf .jnull)
      | none => pd) pd
    build_product ds pd

/-! ## entity_reuse.py -/

/-- The remote collaborators of `get_or_create_brand`, as response oracles:
`get_entity_by_url`, the name-based GraphQL query (the `entities` row list
of its result), and whether `create_or_update_entity` returns normally. -/
structure BrandClient where
  getEntityByUrl : String → Option Obj
  gqlBrandRows : String → List JVal
  createOk : Obj → Bool

/-- A remote call issued by `get_or_create_brand`, in issue order. -/
inductive BrandCall where
  | getEntity (url : String)
  | gqlQuery (name : String)
  | createEntity (entity : Obj)

/-- The brand record returned by every terminal path of
`get_or_create_brand`. -/
def mkBrandResult (iri : JVal) (name : String) : Obj :=
  [("@type", .jstr "Brand"), ("@id", iri), ("name", .jstr name)]

/-- `EntityReuseManager.get_or_create_brand(brand_data)` over the brands
sub-cache (an association list from brand name to cached identifier value).
Returns the brand record, the updated cache and the list of remote calls
issued.  Raising paths (`ValueError` on a falsy name; attribute/type errors
on a non-string, non-dict argument or a truthy non-string name; a row
without `iri`; a failing create call) are `.error`. -/
def get_or_create_brand (client : BrandClient) (ds : String)
    (cache : Obj) (brand_data : JVal) :
    Except Unit (Obj × Obj × List BrandCall) := do
  let (bn, brand_dict) ←
    match brand_data with
    | .jstr s => Except.ok (JVal.jstr s, ([("name", JVal.jstr s)] : Obj))
    | .jobj o => Except.ok ((getO o "name").getD .jnull, o)
    | _ => Except.error ()
  if !(pyTruthy bn) then .error ()
  else
    match bn with
    | .jstr brand_name =>
      match getO cache brand_name with
      | some iri => pure (mkBrandResult iri brand_name, cache, [])
      | none =>
        let brand_iri := generate_entity_idS ds "brand" brand_name
        let existing := client.getEntityByUrl brand_iri
        if (match existing with | some e => !e.isEmpty | none => false) then
          pure (mkBrandResult (.jstr brand_iri) brand_name,
                setK cache brand_name (.jstr brand_iri),
                [.getEntity brand_iri])
        else
          match client.gqlBrandRows brand_name with
          | r :: _ =>
            (match r with
             | .jobj ro =>
               match getO ro "iri" with
               | some iri =>
                 pure (mkBrandResult iri brand_name,
                       setK cache brand_name iri,
                       [.getEntity brand_iri, .gqlQuery brand_name])
               | none => .error ()
             | _ => .error ())
          | [] =>
            let be : Obj := [("@context", .jstr "https://schema.org"),
                             ("@type", .jstr "Brand"),
                             ("@id", .jstr brand_iri),
                             ("name", .jstr brand_name)]
            let be := if hasKey brand_dict "logo" then
                setK be "logo" (getD brand_dict "logo" .jnull) else be
            let be := if hasKey brand_dict "url" then
                setK be "url" (getD brand_dict "url" .jnull) else be
            if client.createOk be then
              pure (mkBrandResult (.jstr brand_iri) brand_name,
                    setK cache brand_name (.jstr brand_iri),
                    [.getEntity brand_iri, .gqlQuery brand_name,
                     .createEntity be])
            else .error ()
    | _ => .error ()

/-! ## kg_sync.py -/

/-- The statistics dict of `sync_products`. -/
structure SyncStats where
  total : Nat
  created : Nat
  updated : Nat
  errors : Nat
  skipped : Nat

/-- One `client.batch_create_or_update` call issued by `sync_products`.  Both
call sites invoke the same client method; the constructor records which of
the two dispatch sites (the create dispatch or the update dispatch) issued
the call, together with its payload. -/
inductive SyncCall where
  | batchCreate (entities : List Obj)
  | batchUpdate (entities : List Obj)

/-- The batch slicing
`[products_data[i:i+batch_size] for i in range(0, len(products_data), batch_size)]`.
For `n ≥ 1`, `(x :: xs).drop n = xs.drop (n - 1)` makes this the same
chunking; for `n = 0` Python `range` raises `ValueError` (the claims assume
a positive batch size; the source default is 50). -/
def chunksGo (fuel : Nat) (n : Nat) : List α → List (List α)
  | [] => []
  | x :: xs =>
    match fuel with
    | 0 => []
    | f + 1 => (x :: xs).take n :: chunksGo f n (xs.drop (n - 1))

/-- Batch slicing entry point: the fuel `l.length` dominates the number of
nonempty slices, so the zero-fuel branch of `chunksGo` is unreachable. -/
def chunksOf (n : Nat) (l : List α) : List (List α) := chunksGo l.length n l

/-- The per-record body of the first loop of `sync_products`: build the
entity and classify it against the snapshot.  `none` models the
`except Exception` branch (builder failure, missing `gtin14` key, or an
unhashable `gtin14` value in the set-membership probe); otherwise the built
entity is returned together with the result of
`gtin_14 in existing_gtins` (a non-string hashable value is never equal to
a string in the set). -/
def classifyRecord (dataset_uri : String) (snapshot : List String)
    (record : Obj) : Option (Obj × Bool) :=
  match create_product_from_scraped_data dataset_uri record with
  | .error _ => none
  | .ok e =>
    match getO e "gtin14" with
    | some (.jstr g) => some (e, decide (g ∈ snapshot))
    | some (.jarr _) => none
    | some (.jobj _) => none
    | some _ => some (e, false)
    | none => none

/-- Effectful left-to-right map over `Except`, modelling a Python list
comprehension whose element expression may raise. -/
def mapExcept (f : α → Except Unit β) : List α → Except Unit (List β)
  | [] => pure []
  | a :: as => do
    let b ← f a
    let bs ← mapExcept f as
    pure (b :: bs)

/-- The recomputation predicate of the validation-filter branch:
`normalize_gtin(e['gtin14']) in existing_gtins`.  Raises (uncaught in the
source) on a missing or non-string `gtin14` or an invalid trade code. -/
def normalizedMember (snapshot : List String) (e : Obj) : Except Unit Bool :=
  match getO e "gtin14" with
  | some (.jstr g) =>
    match normalize_gtin g.toList with
    | .ok n => .ok (decide (n.asString ∈ snapshot))
    | .error _ => .error ()
  | some _ => .error ()
  | none => .error ()

/-- The trailing call block of `_process_batch`: issue the batch-create
call when `to_create` is nonempty and the batch-update call when
`to_update` is nonempty.  `oracle k` tells whether the `k`-th
`batch_create_or_update` call of the run returns normally (`False` = the
call raises, caught by the `except` clause that adds the chunk size to
`errors`). -/
def dispatch (oracle : Nat → Bool) (to_create to_update : List Obj)
    (stats : SyncStats) (k : Nat) : SyncStats × Nat × List SyncCall :=
  let (stats, k, log₁) :=
    if !to_create.isEmpty then
      (if oracle k then { stats with created := stats.created + to_create.length }
       else { stats with errors := stats.errors + to_create.length },
       k + 1, [SyncCall.batchCreate to_create])
    else (stats, k, [])
  let (stats, k, log₂) :=
    if !to_update.isEmpty then
      (if oracle k then { stats with updated := stats.updated + to_update.length }
       else { stats with errors := stats.errors + to_update.length },
       k + 1, [SyncCall.batchUpdate to_update])
    else (stats, k, [])
  (stats, k, log₁ ++ log₂)

/-- One batch iteration of `sync_products`: build/classify each record,
optionally validate (dropping invalid entities and recomputing the
create/update split), then hand the two lists to `dispatch`.  Returns the
updated statistics, the next call index, and the calls issued by this
batch.

The two Python list comprehensions of the recomputation are modelled as one
`mapM` pass followed by two filters: they agree whenever no exception is
raised, and an exception propagates out of `sync_products` either way. -/
def processBatch (dataset_uri : String) (snapshot : List String)
    (enableValidation : Bool) (oracle : Nat → Bool) (batch : List Obj)
    (stats : SyncStats) (k : Nat) :
    Except Unit (SyncStats × Nat × List SyncCall) := do
  let classified := batch.map (classifyRecord dataset_uri snapshot)
  let builderErrors := (classified.filter Option.isNone).length
  let built := classified.filterMap id
  let to_create := (built.filter (fun p => !p.2)).map (·.1)
  let to_update := (built.filter (fun p => p.2)).map (·.1)
  let stats := { stats with errors := stats.errors + builderErrors }
  let (to_create, to_update, stats) ←
    if enableValidation then do
      let all_entities := to_create ++ to_update
      if !all_entities.isEmpty then do
        let results ← validate_batch (all_entities.map .jobj) false
        if results.invalidCount > 0 then do
          let flags := results.rows.map (·.valid)
          let validated := ((all_entities.zip flags).filter (·.2)).map (·.1)
          let wc ← mapExcept (fun e => do
            let m ← normalizedMember snapshot e
            pure (e, m)) validated
          let to_create := (wc.filter (fun p => !p.2)).map (·.1)
          let to_update := (wc.filter (fun p => p.2)).map (·.1)
          pure (to_create, to_update,
                { stats with errors := stats.errors + results.invalidCount })
        else pure (to_create, to_update, stats)
      else pure (to_create, to_update, stats)
    else pure (to_create, to_update, stats)
  pure (dispatch oracle to_create to_update stats k)

/-- The batch loop of `sync_products`, threading the statistics, the call
index and the call log through the batches in order. -/
def runBatches (dataset_uri : String) (snapshot : List String)
    (enableValidation : Bool) (oracle : Nat → Bool) :
    List (List Obj) → SyncStats × Nat × List SyncCall →
    Except Unit (SyncStats × Nat × List SyncCall)
  | [], acc => pure acc
  | batch :: rest, acc => do
    let (s', k', l') ← processBatch dataset_uri snapshot enableValidation
      oracle batch acc.1 acc.2.1
    runBatches dataset_uri snapshot enableValidation oracle rest
      (s', k', acc.2.2 ++ l')

/-- `KGSyncOrchestrator.sync_products(products_data, batch_size)`.
`snapshot` is the list returned by `client.get_all_product_gtins()` (the
source wraps it in `set(...)`, which only affects membership, not order of
anything observed).  Returns the statistics dict and the ordered list of
batch calls issued. -/
def sync_products (dataset_uri : String) (snapshot : List String)
    (enableValidation : Bool) (oracle : Nat → Bool)
    (products_data : List Obj) (batch_size : Nat) :
    Except Unit (SyncStats × List SyncCall) := do
  let stats0 : SyncStats := ⟨products_data.length, 0, 0, 0, 0⟩
  let batches := chunksOf batch_size products_data
  let r ← runBatches dataset_uri snapshot enableValidation oracle batches
    (stats0, 0, [])
  pure (r.1, r.2.2)

/-- The statistics dict of `incremental_update`. -/
structure IncStats where
  total : Nat
  updated : Nat
  no_changes : Nat
  errors : Nat

/-- A JSON Patch operation as built by `_generate_patches`. -/
inductive PatchOp where
  | addOp (path : String) (value : JVal)
  | replaceOp (path : String) (value : JVal)
  | removeOp (path : String)

/-- The fixed `comparable_fields` list of `_generate_patches`. -/
def comparableFields : List String :=
  ["schema:name", "schema:description", "schema:price",
   "schema:image", "schema:sku", "schema:availability"]

/-- `f"/https://{field.replace(':', '/')}"` (the replaced pattern is a
single character, so character-wise replacement is the same). -/
def patchPath (f : String) : String :=
  "/https://" ++ (f.toList.map (fun c => if c = ':' then '/' else c)).asString

/-- `field.split(':')[1]`: the text after the first colon (every comparable
field contains exactly one colon). -/
def afterColon (f : String) : String :=
  ((f.toList.dropWhile (fun c => c ≠ ':')).drop 1).asString

/-- The local `patches` list that the body of `_generate_patches` builds:
for each comparable field, compare `new.get(field-without-prefix)` with
`existing.get(field)` (an absent key yields Python `None`, identified with
JSON null), and emit replace/add/remove accordingly (`replace` when the
existing value is truthy, `add` otherwise; `remove` only for a truthy
existing value). -/
def patchesList (existing new : Obj) : List PatchOp :=
  comparableFields.filterMap fun f =>
    let nv := (getO new (afterColon f)).getD .jnull
    let ev := (getO existing f).getD .jnull
    if !(JVal.beq nv ev) then
      match nv with
      | .jnull =>
        if pyTruthy ev then some (.removeOp (patchPath f)) else none
      | _ =>
        some (if pyTruthy ev then .replaceOp (patchPath f) nv
              else .addOp (patchPath f) nv)
    else none

/-- `KGSyncOrchestrator._generate_patches(existing, new)`: the body builds
the patch list (modelled by `patchesList`) but the function has no return
statement, so the call expression always evaluates to Python `None`,
modelled as `none`. -/
def generate_patches (existing new : Obj) : Option (List PatchOp) :=
  let _patches := patchesList existing new
  none

/-- The outcome of one record of `incremental_update`. -/
inductive IncOutcome where
  | errored
  | noChanges
  | patched (entityId : String) (patches : List PatchOp)

/-- The per-record body of `incremental_update` (the whole body sits in a
`try/except`, so every modelled exception becomes an error count, never a
propagated failure): build the entity, fetch the remote entity by id
(`None` or a falsy empty dict → error), call `_generate_patches`, count
`no_changes` when the result is falsy (it is always `None`, see
`generate_patches`), otherwise issue the patch call. -/
def incRecord (dataset_uri : String) (getEntity : String → Option Obj)
    (record : Obj) : IncOutcome :=
  match create_product_from_scraped_data dataset_uri record with
  | .error _ => .errored
  | .ok e =>
    match getO e "@id" with
    | some (.jstr entityId) =>
      match getEntity entityId with
      | none => .errored
      | some ex =>
        if ex.isEmpty then .errored
        else
          match generate_patches ex e with
          | none => .noChanges
          | some [] => .noChanges
          | some ps => .patched entityId ps
    | some _ => .errored
    | none => .errored

/-- `KGSyncOrchestrator.incremental_update(products_data)`.  `getEntity`
models `client.get_entity_by_url`; `patchOk k` tells whether the `k`-th
`patch_entity` call returns normally.  Returns the statistics and the list
of patch calls issued. -/
def incremental_update (dataset_uri : String)
    (getEntity : String → Option Obj) (patchOk : Nat → Bool)
    (products_data : List Obj) : IncStats × List (String × List PatchOp) :=
  let step := fun (acc : IncStats × Nat × List (String × List PatchOp)) record =>
    let (stats, k, log) := acc
    match incRecord dataset_uri getEntity record with
    | .errored => ({ stats with errors := stats.errors + 1 }, k, log)
    | .noChanges => ({ stats with no_changes := stats.no_changes + 1 }, k, log)
    | .patched entityId ps =>
      (if patchOk k then { stats with updated := stats.updated + 1 }
       else { stats with errors := stats.errors + 1 },
       k + 1, log ++ [(entityId, ps)])
  let r := products_data.foldl step (⟨products_data.length, 0, 0, 0⟩, 0, [])
  (r.1, r.2.2)

/-! ## Helper lemmas -/

theorem except_bind_ok {α β : Type} {x : Except Unit α} {f : α → Except Unit β}
    {r : β} (h : x.bind f = .ok r) : ∃ a, x = .ok a ∧ f a = .ok r := by
  cases x with
  | ok a => exact ⟨a, rfl, h⟩
  | error e => simp [Except.bind] at h

theorem rstripSlash_append_slash (s : Str) :
    rstripSlash (s ++ ['/']) = rstripSlash s := by
  simp [rstripSlash, List.dropWhile]

/-- The GS1 mod-10 check on a raw digit string (spec 4.1): the weighted sum
of all digits except the last, with weights alternating 3,1 from the
rightmost, determines the expected check digit, compared with the last
digit. -/
def gs1CheckCorrect (d : Str) : Bool :=
  match d.getLast? with
  | none => false
  | some c =>
    (10 - (gs1Sum true ((d.dropLast).map digitVal).reverse) % 10) % 10
      == digitVal c

theorem gs1Sum_replicate_zero (k : Nat) (w : Bool) :
    gs1Sum w (List.replicate k 0) = 0 := by
  induction k generalizing w with
  | zero => rfl
  | succ n ih => simp [gs1Sum, ih]

theorem gs1Sum_append_zeros (l : List Nat) (w : Bool) (k : Nat) :
    gs1Sum w (l ++ List.replicate k 0) = gs1Sum w l := by
  induction l generalizing w with
  | nil => simp [gs1Sum, gs1Sum_replicate_zero]
  | cons d ds ih => simp [gs1Sum, ih]

/-- Left-padding with zeros preserves the GS1 check: the padded zeros sit at
the high end, contribute zero at any weight, and do not move the weights of
the original digits (weights are indexed from the right). -/
theorem validate_zfill (d : Str) (hne : d ≠ []) (hle : d.length ≤ 14) :
    validate_gtin_check_digit (zfill14 d) = gs1CheckCorrect d := by
  have hlen : (zfill14 d).length = 14 := by
    simp [zfill14]
    omega
  unfold validate_gtin_check_digit gs1CheckCorrect
  rw [if_pos hlen]
  dsimp only [zfill14]
  rw [List.dropLast_append_of_ne_nil _ hne, List.getLast?_append_of_ne_nil _ hne]
  rw [List.map_append, List.map_replicate,
      show digitVal '0' = 0 from rfl, List.reverse_append,
      List.reverse_replicate, gs1Sum_append_zeros]
  cases d.getLast? <;> rfl


/-- The no-consecutive-hyphens relation between adjacent characters. -/
def noDD (a b : Char) : Prop := a ≠ '-' ∨ b ≠ '-'

theorem collapseHyphens_subset :
    ∀ (b : Bool) (l : Str) (c : Char), c ∈ collapseHyphens b l → c ∈ l := by
  intro b l
  induction l generalizing b with
  | nil => intro c h; simp [collapseHyphens] at h
  | cons a as ih =>
    intro c h
    unfold collapseHyphens at h
    by_cases ha : a = '-'
    · rw [if_pos ha] at h
      cases b with
      | true => exact List.mem_cons_of_mem a (ih true c h)
      | false =>
        simp only [if_neg, Bool.false_eq_true, reduceIte] at h
        rcases List.mem_cons.mp h with h | h
        · subst h; subst ha; exact List.mem_cons_self _ _
        · exact List.mem_cons_of_mem a (ih true c h)
    · rw [if_neg ha] at h
      rcases List.mem_cons.mp h with h | h
      · subst h; exact List.mem_cons_self _ _
      · exact List.mem_cons_of_mem a (ih false c h)

theorem collapseHyphens_chain :
    ∀ l : Str, List.Chain' noDD (collapseHyphens false l) ∧
      List.Chain' noDD (collapseHyphens true l) ∧
      (collapseHyphens true l).head? ≠ some '-' := by
  intro l
  induction l with
  | nil => refine ⟨List.chain'_nil, List.chain'_nil, by simp [collapseHyphens]⟩
  | cons a as ih =>
    obtain ⟨ihf, iht, ihh⟩ := ih
    by_cases ha : a = '-'
    · refine ⟨?_, ?_, ?_⟩
      · show List.Chain' noDD (collapseHyphens false (a :: as))
        unfold collapseHyphens
        rw [if_pos ha]
        simp only [Bool.false_eq_true, reduceIte]
        rw [List.chain'_cons']
        refine ⟨?_, iht⟩
        intro y hy
        right
        intro hy'
        subst hy'
        exact ihh (Option.mem_def.mp hy)
      · unfold collapseHyphens
        rw [if_pos ha]
        simpa using iht
      · unfold collapseHyphens
        rw [if_pos ha]
        simpa using ihh
    · refine ⟨?_, ?_, ?_⟩
      · unfold collapseHyphens
        rw [if_neg ha]
        rw [List.chain'_cons']
        exact ⟨fun y _ => Or.inl ha, ihf⟩
      · unfold collapseHyphens
        rw [if_neg ha]
        rw [List.chain'_cons']
        exact ⟨fun y _ => Or.inl ha, ihf⟩
      · unfold collapseHyphens
        rw [if_neg ha]
        simp only [List.head?_cons]
        intro h
        exact ha (Option.some.injEq _ _ ▸ h)


theorem dropWhile_head?_false {α : Type} {p : α → Bool} :
    ∀ (l : List α) (c : α), (l.dropWhile p).head? = some c → p c = false := by
  intro l
  induction l with
  | nil => intro c h; simp at h
  | cons a as ih =>
    intro c h
    rw [List.dropWhile_cons] at h
    by_cases hpa : p a = true
    · rw [if_pos hpa] at h
      exact ih c h
    · rw [if_neg hpa] at h
      simp only [List.head?_cons, Option.some.injEq] at h
      subst h
      exact Bool.eq_false_iff.mpr hpa

theorem getLast?_of_suffix {α : Type} {l' l : List α} (h : l' <:+ l)
    (hne : l' ≠ []) : l'.getLast? = l.getLast? := by
  obtain ⟨t, rfl⟩ := h
  exact (List.getLast?_append_of_ne_nil t hne).symm

theorem dropWhile_eq_self_of_head {α : Type} {p : α → Bool} {l : List α}
    (h : ∀ c, l.head? = some c → p c = false) : l.dropWhile p = l := by
  cases l with
  | nil => rfl
  | cons a as =>
    rw [List.dropWhile_cons, if_neg]
    rw [h a rfl]
    simp

theorem noDD_symm {a b : Char} (h : noDD a b) : noDD b a := h.symm

theorem stripHyphens_head? (l : Str) : (stripHyphens l).head? ≠ some '-' := by
  unfold stripHyphens
  rw [List.head?_reverse]
  intro h
  set m1 := l.dropWhile (fun c => c = '-') with hm1
  set m2 := m1.reverse.dropWhile (fun c => c = '-') with hm2
  have hm2ne : m2 ≠ [] := by
    intro he
    rw [he] at h
    simp at h
  have hsuf : m2 <:+ m1.reverse := List.dropWhile_suffix _
  have hlast : m2.getLast? = m1.reverse.getLast? := getLast?_of_suffix hsuf hm2ne
  rw [h, List.getLast?_reverse] at hlast
  have := dropWhile_head?_false (p := fun c => c = '-') l '-' hlast.symm
  simp at this

theorem stripHyphens_getLast? (l : Str) : (stripHyphens l).getLast? ≠ some '-' := by
  unfold stripHyphens
  rw [List.getLast?_reverse]
  intro h
  have := dropWhile_head?_false (p := fun c => c = '-') _ '-' h
  simp at this

theorem stripHyphens_chain {l : Str} (h : List.Chain' noDD l) :
    List.Chain' noDD (stripHyphens l) := by
  unfold stripHyphens
  have h1 : List.Chain' noDD (l.dropWhile (fun c => c = '-')) :=
    h.suffix (List.dropWhile_suffix _)
  have h2 : List.Chain' noDD (l.dropWhile (fun c => c = '-')).reverse := by
    rw [List.chain'_reverse]
    exact h1.imp (fun _ _ => noDD_symm)
  have h3 := h2.suffix (List.dropWhile_suffix (fun c : Char => c = '-'))
  rw [List.chain'_reverse]
  exact h3.imp (fun _ _ => noDD_symm)

theorem stripHyphens_subset {l : Str} {c : Char} (h : c ∈ stripHyphens l) :
    c ∈ l := by
  unfold stripHyphens at h
  rw [List.mem_reverse] at h
  have h1 := (List.dropWhile_suffix (l := (l.dropWhile (fun c => c = '-')).reverse)
    (fun c : Char => c = '-')).sublist.subset h
  rw [List.mem_reverse] at h1
  exact (List.dropWhile_suffix (fun c : Char => c = '-')).sublist.subset h1

theorem stripHyphens_fix {l : Str} (h1 : l.head? ≠ some '-')
    (h2 : l.getLast? ≠ some '-') : stripHyphens l = l := by
  unfold stripHyphens
  have e1 : l.dropWhile (fun c => c = '-') = l := by
    apply dropWhile_eq_self_of_head
    intro c hc
    have : c ≠ '-' := by
      intro hc'
      subst hc'
      exact h1 hc
    simp [this]
  rw [e1]
  have e2 : l.reverse.dropWhile (fun c => c = '-') = l.reverse := by
    apply dropWhile_eq_self_of_head
    intro c hc
    rw [List.head?_reverse] at hc
    have : c ≠ '-' := by
      intro hc'
      subst hc'
      exact h2 hc
    simp [this]
  rw [e2, List.reverse_reverse]


theorem asciiLower_fix {c : Char} (h : isSlugChar c = true) : asciiLower c = c := by
  unfold asciiLower
  rw [if_neg]
  unfold isSlugChar at h
  simp only [Bool.or_eq_true, Bool.and_eq_true, decide_eq_true_eq, beq_iff_eq] at h
  rintro ⟨h1, h2⟩
  rcases h with (⟨ha, hb⟩ | ⟨ha, hb⟩) | hc
  · exact absurd (le_trans ha h2) (by decide)
  · exact absurd (le_trans h1 hb) (by decide)
  · subst hc
    exact absurd h1 (by decide)

theorem map_asciiLower_fix {l : Str} (h : ∀ c ∈ l, isSlugChar c = true) :
    l.map asciiLower = l := by
  induction l with
  | nil => rfl
  | cons a as ih =>
    simp only [List.map_cons]
    rw [asciiLower_fix (h a (List.mem_cons_self a as)),
        ih (fun c hc => h c (List.mem_cons_of_mem a hc))]

theorem ws_not_slug {c : Char} (h : isWsOrUnderscore c = true) :
    isSlugChar c = false := by
  unfold isWsOrUnderscore at h
  simp only [Bool.or_eq_true, beq_iff_eq] at h
  rcases h with ((((((h | h) | h) | h) | h) | h) | h) <;> subst h <;> decide

theorem slug_not_ws {c : Char} (h : isSlugChar c = true) :
    isWsOrUnderscore c = false := by
  by_contra hc
  have hw : isWsOrUnderscore c = true := by
    cases hx : isWsOrUnderscore c
    · exact absurd hx hc
    · rfl
  rw [ws_not_slug hw] at h
  exact Bool.false_ne_true h

theorem subWsRun_fix : ∀ (b : Bool) (l : Str),
    (∀ c ∈ l, isWsOrUnderscore c = false) → subWsRun b l = l := by
  intro b l
  induction l generalizing b with
  | nil => intro _; rfl
  | cons a as ih =>
    intro h
    unfold subWsRun
    rw [if_neg, ih false (fun c hc => h c (List.mem_cons_of_mem a hc))]
    rw [h a (List.mem_cons_self a as)]
    simp

theorem collapseHyphens_fix : ∀ l : Str, List.Chain' noDD l →
    (collapseHyphens false l = l ∧
     (l.head? ≠ some '-' → collapseHyphens true l = l)) := by
  intro l
  induction l with
  | nil => intro _; exact ⟨rfl, fun _ => rfl⟩
  | cons a as ih =>
    intro h
    obtain ⟨hr, htail⟩ := List.chain'_cons'.mp h
    obtain ⟨ihf, iht⟩ := ih htail
    by_cases ha : a = '-'
    · constructor
      · unfold collapseHyphens
        rw [if_pos ha]
        simp only [Bool.false_eq_true, reduceIte]
        have hhd : as.head? ≠ some '-' := by
          intro hh
          rcases hr '-' (Option.mem_def.mpr hh) with hx | hx
          · exact hx ha
          · exact hx rfl
        rw [iht hhd, ha]
      · intro hhd
        exfalso
        apply hhd
        simp [ha]
    · constructor
      · unfold collapseHyphens
        rw [if_neg ha, ihf]
      · intro _
        unfold collapseHyphens
        rw [if_neg ha, ihf]


theorem gocb_jstr_cachehit (client : BrandClient) (ds : String) (cache : Obj)
    (s : String) (iri : JVal) (hs : s ≠ "") (hc : getO cache s = some iri) :
    get_or_create_brand client ds cache (.jstr s) =
      .ok (mkBrandResult iri s, cache, []) := by
  unfold get_or_create_brand
  simp only [Bind.bind, Except.bind]
  rw [show pyTruthy (.jstr s) = true from by
    dsimp only [pyTruthy]; exact decide_eq_true hs]
  simp only [Bool.not_true, Bool.false_eq_true, reduceIte, hc]
  rfl

theorem gocb_jobj_cachehit (client : BrandClient) (ds : String) (cache : Obj)
    (o : Obj) (s : String) (iri : JVal)
    (hname : (getO o "name").getD .jnull = .jstr s)
    (hs : s ≠ "") (hc : getO cache s = some iri) :
    get_or_create_brand client ds cache (.jobj o) =
      .ok (mkBrandResult iri s, cache, []) := by
  unfold get_or_create_brand
  simp only [Bind.bind, Except.bind]
  rw [hname]
  rw [show pyTruthy (.jstr s) = true from by
    dsimp only [pyTruthy]; exact decide_eq_true hs]
  simp only [Bool.not_true, Bool.false_eq_true, reduceIte, hc]
  rfl

theorem getO_setK_nil (s : String) (v : JVal) : getO (setK [] s v) s = some v := by
  simp [setK, hasKey, getO, List.find?]

theorem getO_mkBrandResult_id (iri : JVal) (s : String) :
    getO (mkBrandResult iri s) "@id" = some iri := rfl

/-- Common continuation: from the reduced first-call hypothesis in the
cache-miss path, with the name known to be the string `s`. -/
theorem gocb_miss_aux (client : BrandClient) (ds : String) (s : String)
    (brand_dict : Obj) (b1 c1 : Obj) (l1 : List BrandCall) (hs : s ≠ "")
    (h : (if (match client.getEntityByUrl (generate_entity_idS ds "brand" s) with
              | some e => !e.isEmpty
              | none => false) = true then
            (pure (mkBrandResult (.jstr (generate_entity_idS ds "brand" s)) s,
                   setK [] s (.jstr (generate_entity_idS ds "brand" s)),
                   [BrandCall.getEntity (generate_entity_idS ds "brand" s)]) :
              Except Unit (Obj × Obj × List BrandCall))
          else
            match client.gqlBrandRows s with
            | r :: _ =>
              (match r with
               | .jobj ro =>
                 match getO ro "iri" with
                 | some iri =>
                   pure (mkBrandResult iri s, setK [] s iri,
                         [.getEntity (generate_entity_idS ds "brand" s),
                          .gqlQuery s])
                 | none => .error ()
               | _ => .error ())
            | [] =>
              let be : Obj := [("@context", .jstr "https://schema.org"),
                               ("@type", .jstr "Brand"),
                               ("@id", .jstr (generate_entity_idS ds "brand" s)),
                               ("name", .jstr s)]
              let be := if hasKey brand_dict "logo" then
                  setK be "logo" (getD brand_dict "logo" .jnull) else be
              let be := if hasKey brand_dict "url" then
                  setK be "url" (getD brand_dict "url" .jnull) else be
              if client.createOk be then
                pure (mkBrandResult (.jstr (generate_entity_idS ds "brand" s)) s,
                      setK [] s (.jstr (generate_entity_idS ds "brand" s)),
                      [.getEntity (generate_entity_idS ds "brand" s),
                       .gqlQuery s, .createEntity be])
              else .error ()) = .ok (b1, c1, l1)) :
    ∃ iri, getO c1 s = some iri ∧ getO b1 "@id" = some iri ∧
      b1 = mkBrandResult iri s ∧ c1 = setK [] s iri := by
  cases hE : (match client.getEntityByUrl (generate_entity_idS ds "brand" s) with
              | some e => !e.isEmpty
              | none => false) with
  | true =>
    rw [hE] at h
    simp only [reduceIte, pure, Except.pure, Except.ok.injEq, Prod.mk.injEq] at h
    obtain ⟨hb, hc, -⟩ := h
    refine ⟨.jstr (generate_entity_idS ds "brand" s), ?_, ?_, hb.symm, hc.symm⟩
    · rw [← hc]; exact getO_setK_nil _ _
    · rw [← hb]; rfl
  | false =>
    rw [hE] at h
    simp only [Bool.false_eq_true, reduceIte] at h
    cases hrows : client.gqlBrandRows s with
    | cons r rs =>
      rw [hrows] at h
      cases r with
      | jobj ro =>
        dsimp only at h
        cases hiri : getO ro "iri" with
        | some iri =>
          rw [hiri] at h
          simp only [pure, Except.pure, Except.ok.injEq, Prod.mk.injEq] at h
          obtain ⟨hb, hc, -⟩ := h
          refine ⟨iri, ?_, ?_, hb.symm, hc.symm⟩
          · rw [← hc]; exact getO_setK_nil _ _
          · rw [← hb]; rfl
        | none => rw [hiri] at h; exact absurd h (by simp)
      | jnull => exact absurd h (by simp)
      | jbool b => exact absurd h (by simp)
      | jnum n => exact absurd h (by simp)
      | jstr t => exact absurd h (by simp)
      | jarr a => exact absurd h (by simp)
    | nil =>
      rw [hrows] at h
      dsimp only at h
      cases hok : client.createOk
        (if hasKey brand_dict "url" then
          setK (if hasKey brand_dict "logo" then
              setK [("@context", .jstr "https://schema.org"),
                    ("@type", .jstr "Brand"),
                    ("@id", .jstr (generate_entity_idS ds "brand" s)),
                    ("name", .jstr s)] "logo" (getD brand_dict "logo" .jnull)
            else [("@context", .jstr "https://schema.org"),
                  ("@type", .jstr "Brand"),
                  ("@id", .jstr (generate_entity_idS ds "brand" s)),
                  ("name", .jstr s)]) "url" (getD brand_dict "url" .jnull)
         else (if hasKey brand_dict "logo" then
              setK [("@context", .jstr "https://schema.org"),
                    ("@type", .jstr "Brand"),
                    ("@id", .jstr (generate_entity_idS ds "brand" s)),
                    ("name", .jstr s)] "logo" (getD brand_dict "logo" .jnull)
            else [("@context", .jstr "https://schema.org"),
                  ("@type", .jstr "Brand"),
                  ("@id", .jstr (generate_entity_idS ds "brand" s)),
                  ("name", .jstr s)])) with
  | false => rw [hok] at h; exact absurd h (by simp)
  | true =>
    rw [hok] at h
    simp only [reduceIte, pure, Except.pure, Except.ok.injEq, Prod.mk.injEq] at h
    obtain ⟨hb, hc, -⟩ := h
    refine ⟨.jstr (generate_entity_idS ds "brand" s), ?_, ?_, hb.symm, hc.symm⟩
    · rw [← hc]; exact getO_setK_nil _ _
    · rw [← hb]; rfl


theorem chunksOf_two (bs : Nat) (hbs : 2 ≤ bs) (p1 p2 : Obj) :
    chunksOf bs [p1, p2] = [[p1, p2]] := by
  obtain ⟨b, rfl⟩ : ∃ b, bs = b + 2 := ⟨bs - 2, by omega⟩
  have h1 : b + 2 - 1 = b + 1 := by omega
  simp [chunksOf, chunksGo, h1, List.take_succ_cons, List.drop_succ_cons]

theorem classifyRecord_eq (ds : String) (snapshot : List String) (p e : Obj)
    (g : String) (hb : create_product_from_scraped_data ds p = .ok e)
    (hg : getO e "gtin14" = some (.jstr g)) :
    classifyRecord ds snapshot p = some (e, decide (g ∈ snapshot)) := by
  unfold classifyRecord
  rw [hb]
  dsimp only
  rw [hg]

theorem filter_isNone_filterMap_length {α : Type} (l : List (Option α)) :
    (l.filter Option.isNone).length + (l.filterMap id).length = l.length := by
  induction l with
  | nil => rfl
  | cons a as ih =>
    cases a with
    | none => simp [List.filter_cons, List.filterMap_cons, Option.isNone]; omega
    | some x => simp [List.filter_cons, List.filterMap_cons, Option.isNone]; omega

theorem filter_bool_partition_length {α : Type} (p : α → Bool) (l : List α) :
    (l.filter (fun a => !p a)).length + (l.filter p).length = l.length := by
  induction l with
  | nil => rfl
  | cons a as ih =>
    cases hp : p a <;> simp [List.filter_cons, hp] <;> omega

theorem batchRows_length (strict : Bool) :
    ∀ (i : Nat) (es : List JVal) (rows : List EntityRow),
      batchRows strict i es = .ok rows → rows.length = es.length := by
  intro i es
  induction es generalizing i with
  | nil =>
    intro rows h
    simp only [batchRows, pure, Except.pure, Except.ok.injEq] at h
    subst h
    rfl
  | cons e es ih =>
    intro rows h
    simp only [batchRows, Bind.bind, Except.bind] at h
    obtain ⟨r, hr, h⟩ := except_bind_ok h
    obtain ⟨rest, hrest, h⟩ := except_bind_ok h
    simp only [pure, Except.pure, Except.ok.injEq] at h
    subst h
    simp [ih (i + 1) rest hrest]

theorem mapExcept_length {α β : Type} (f : α → Except Unit β) :
    ∀ (l : List α) (l' : List β), mapExcept f l = .ok l' → l'.length = l.length := by
  intro l
  induction l with
  | nil =>
    intro l' h
    simp only [mapExcept, pure, Except.pure, Except.ok.injEq] at h
    subst h
    rfl
  | cons a as ih =>
    intro l' h
    simp only [mapExcept, Bind.bind, Except.bind] at h
    obtain ⟨b, hb, h⟩ := except_bind_ok h
    obtain ⟨bs, hbs, h⟩ := except_bind_ok h
    simp only [pure, Except.pure, Except.ok.injEq] at h
    subst h
    simp [ih bs hbs]

theorem zip_filter_true_length {α : Type} :
    ∀ (l : List α) (fl : List Bool), l.length = fl.length →
      ((l.zip fl).filter (fun p => p.2)).length = (fl.filter id).length := by
  intro l
  induction l with
  | nil => intro fl h; cases fl <;> simp_all
  | cons a as ih =>
    intro fl h
    cases fl with
    | nil => simp at h
    | cons b bs =>
      cases b <;> simp [List.zip_cons_cons, List.filter_cons] <;>
        exact ih bs (by simpa using h)

theorem map_filter_not_length {α β : Type} (f : α → β) (p : β → Bool) (l : List α) :
    ((l.map f).filter (fun b => !p b)).length = (l.filter (fun a => !p (f a))).length := by
  induction l with
  | nil => rfl
  | cons a as ih =>
    cases hp : p (f a) <;> simp [List.filter_cons, hp] <;> omega

theorem filter_id_not_length (fl : List Bool) :
    (fl.filter id).length + (fl.filter (fun b => !b)).length = fl.length := by
  induction fl with
  | nil => rfl
  | cons b bs ih =>
    cases b <;> simp [List.filter_cons] <;> omega


theorem chunksGo_join {α : Type} (n : Nat) :
    ∀ (fuel : Nat) (l : List α), l.length ≤ fuel → 0 < n →
      (chunksGo fuel n l).flatten = l := by
  intro fuel
  induction fuel with
  | zero =>
    intro l h _
    cases l with
    | nil => rfl
    | cons x xs => simp at h
  | succ f ih =>
    intro l h hn
    cases l with
    | nil => rfl
    | cons x xs =>
      show ((x :: xs).take n :: chunksGo f n (xs.drop (n - 1))).flatten = x :: xs
      rw [List.flatten_cons]
      rw [ih (xs.drop (n - 1)) (by simp only [List.length_drop]; simp only [List.length_cons] at h; omega) hn]
      obtain ⟨m, rfl⟩ : ∃ m, n = m + 1 := ⟨n - 1, by omega⟩
      rw [List.take_succ_cons]
      simp only [Nat.add_sub_cancel]
      rw [List.cons_append, List.take_append_drop]

theorem chunksOf_join {α : Type} (n : Nat) (l : List α) (hn : 0 < n) :
    (chunksOf n l).flatten = l :=
  chunksGo_join n l.length l (le_refl _) hn

theorem validate_batch_inv (ents : List JVal) (strict : Bool) (res : BatchRes)
    (h : validate_batch ents strict = .ok res) :
    ∃ rows, batchRows strict 0 ents = .ok rows ∧
      res = ⟨ents.length, (rows.filter (·.valid)).length,
             (rows.filter (fun r => !r.valid)).length, rows⟩ := by
  unfold validate_batch at h
  simp only [Bind.bind] at h
  obtain ⟨rows, hrows, h⟩ := except_bind_ok h
  simp only [pure, Except.pure, Except.ok.injEq] at h
  exact ⟨rows, hrows, h.symm⟩


theorem len_zero_of_isEmpty {α : Type} {l : List α} (h : l.isEmpty = true) :
    l.length = 0 := by
  cases l with
  | nil => rfl
  | cons a as => simp [List.isEmpty] at h

theorem dispatch_fst_delta (oracle : Nat → Bool) (a b : List Obj)
    (st : SyncStats) (k : Nat) (out : SyncStats × Nat × List SyncCall)
    (h : dispatch oracle a b st k = out) :
    out.1.created + out.1.updated + out.1.errors
      = st.created + st.updated + st.errors + (a.length + b.length) ∧
    out.1.total = st.total ∧ out.1.skipped = st.skipped := by
  subst h
  unfold dispatch
  cases hae : a.isEmpty <;> cases hbe : b.isEmpty <;>
    simp only [hae, hbe, Bool.not_true, Bool.not_false, reduceIte] <;>
    refine ⟨?_, ?_, ?_⟩ <;>
    (repeat' split) <;> (try dsimp only) <;>
    first
      | omega
      | (have hz1 := len_zero_of_isEmpty hae
         omega)
      | (have hz2 := len_zero_of_isEmpty hbe
         omega)
      | (have hz1 := len_zero_of_isEmpty hae
         have hz2 := len_zero_of_isEmpty hbe
         omega)

theorem processBatch_delta (ds : String) (snap : List String) (ev : Bool)
    (oracle : Nat → Bool) (batch : List Obj) (stats : SyncStats) (k : Nat)
    (stats' : SyncStats) (k' : Nat) (log : List SyncCall)
    (h : processBatch ds snap ev oracle batch stats k = .ok (stats', k', log)) :
    stats'.created + stats'.updated + stats'.errors =
      stats.created + stats.updated + stats.errors + batch.length ∧
    stats'.total = stats.total ∧ stats'.skipped = stats.skipped := by
  unfold processBatch at h
  simp only [Bind.bind] at h
  set cl := List.map (classifyRecord ds snap) batch with hcldef
  set built := List.filterMap id cl with hbuiltdef
  set tc := List.map (fun x => x.1) (List.filter (fun p => !p.2) built) with htcdef
  set tu := List.map (fun x => x.1) (List.filter (fun p => p.2) built) with htudef
  have hsum1 : (List.filter Option.isNone cl).length + built.length =
      batch.length := by
    rw [hbuiltdef, hcldef]
    conv_rhs => rw [← List.length_map batch (classifyRecord ds snap)]
    exact filter_isNone_filterMap_length _
  have hsum2 : tc.length + tu.length = built.length := by
    rw [htcdef, htudef]
    simp only [List.length_map]
    exact filter_bool_partition_length _ _
  clear_value cl built tc tu
  clear hcldef hbuiltdef htcdef htudef
  cases hev : ev
  · rw [hev] at h
    simp only [Bool.false_eq_true, reduceIte] at h
    simp only [pure, Except.pure, Except.bind, Except.ok.injEq] at h
    try dsimp only at h
    obtain ⟨hd, ht, hs⟩ := dispatch_fst_delta _ _ _ _ _ _ h
    try dsimp only at hd ht hs
    refine ⟨?_, ?_, ?_⟩ <;> omega
  · rw [hev] at h
    simp only [reduceIte] at h
    by_cases hne : (!(tc ++ tu).isEmpty) = true
    · rw [if_pos hne] at h
      obtain ⟨results, hres, h⟩ := except_bind_ok h
      obtain ⟨rows, hrows, hreseq⟩ := validate_batch_inv _ _ _ hres
      subst hreseq
      try dsimp only at h
      have hrl : rows.length = (tc ++ tu).length := by
        rw [batchRows_length false 0 _ rows hrows, List.length_map]
      by_cases hinv : (List.filter (fun r => !r.valid) rows).length > 0
      · rw [if_pos hinv] at h
        obtain ⟨wc, hwc, h⟩ := except_bind_ok h
        simp only [pure, Except.pure, Except.bind, Except.ok.injEq] at h
        try dsimp only at h
        have hwl := mapExcept_length _ _ _ hwc
        have hzl : (List.filter (fun p => p.2)
              ((tc ++ tu).zip (List.map (fun x => x.valid) rows))).length =
            (List.filter id (List.map (fun x => x.valid) rows)).length := by
          apply zip_filter_true_length
          rw [List.length_map, hrl]
        have hmf : (List.filter (fun b => !b)
              (List.map (fun x => x.valid) rows)).length
            = (List.filter (fun r => !r.valid) rows).length :=
          map_filter_not_length (fun x => x.valid) (fun b => b) rows
        have hidnot := filter_id_not_length (List.map (fun x => x.valid) rows)
        have hml : (List.map (fun x => x.valid) rows).length = rows.length :=
          List.length_map _ _
        have happ : (tc ++ tu).length = tc.length + tu.length :=
          List.length_append _ _
        rw [List.length_map, hzl] at hwl
        set tcb := List.map (fun x => x.1) (List.filter (fun p => !p.2) wc)
          with htcbdef
        set tub := List.map (fun x => x.1) (List.filter (fun p => p.2) wc)
          with htubdef
        have hwsplit : tcb.length + tub.length = wc.length := by
          rw [htcbdef, htubdef]
          simp only [List.length_map]
          exact filter_bool_partition_length _ _
        clear_value tcb tub
        obtain ⟨hd, ht, hs⟩ := dispatch_fst_delta _ _ _ _ _ _ h
        try dsimp only at hd ht hs
        refine ⟨?_, ?_, ?_⟩ <;> omega
      · rw [if_neg hinv] at h
        simp only [pure, Except.pure, Except.bind, Except.ok.injEq] at h
        try dsimp only at h
        obtain ⟨hd, ht, hs⟩ := dispatch_fst_delta _ _ _ _ _ _ h
        try dsimp only at hd ht hs
        refine ⟨?_, ?_, ?_⟩ <;> omega
    · rw [if_neg hne] at h
      simp only [pure, Except.pure, Except.bind, Except.ok.injEq] at h
      try dsimp only at h
      obtain ⟨hd, ht, hs⟩ := dispatch_fst_delta _ _ _ _ _ _ h
      try dsimp only at hd ht hs
      refine ⟨?_, ?_, ?_⟩ <;> omega

theorem runBatches_delta (ds : String) (snap : List String) (ev : Bool)
    (oracle : Nat → Bool) :
    ∀ (bs : List (List Obj)) (acc out : SyncStats × Nat × List SyncCall),
      runBatches ds snap ev oracle bs acc = .ok out →
      out.1.created + out.1.updated + out.1.errors
          = acc.1.created + acc.1.updated + acc.1.errors + bs.flatten.length ∧
      out.1.total = acc.1.total ∧ out.1.skipped = acc.1.skipped := by
  intro bs
  induction bs with
  | nil =>
    intro acc out h
    simp only [runBatches, pure, Except.pure, Except.ok.injEq] at h
    subst h
    simp
  | cons batch rest ih =>
    intro acc out h
    simp only [runBatches, Bind.bind] at h
    obtain ⟨trip, htrip, h⟩ := except_bind_ok h
    obtain ⟨s1, k1, l1⟩ := trip
    try dsimp only at h
    have hpb := processBatch_delta ds snap ev oracle batch acc.1 acc.2.1
      s1 k1 l1 htrip
    have hr := ih (s1, k1, acc.2.2 ++ l1) out h
    try dsimp only at hr
    rw [List.flatten_cons, List.length_append]
    obtain ⟨ha, hb, hc⟩ := hpb
    obtain ⟨hd, he, hf⟩ := hr
    refine ⟨?_, ?_, ?_⟩ <;> omega

theorem gtinMatchAt_cons_eq (rest : Str) :
    gtinMatchAt ('/' :: '0' :: '1' :: '/' :: rest) =
      (if (rest.take 14).length = 14 && (rest.take 14).all isDigitChar
       then some (rest.take 14) else none) := rfl

theorem gtinMatchAt_mismatch (a b c d : Char) (rest : Str)
    (h : ¬(a = '/' ∧ b = '0' ∧ c = '1' ∧ d = '/')) :
    gtinMatchAt (a :: b :: c :: d :: rest) = none := by
  rw [gtinMatchAt.eq_def]
  split
  · rename_i heq
    simp only [List.cons.injEq] at heq
    exact absurd ⟨heq.1, heq.2.1, heq.2.2.1, heq.2.2.2.1⟩ h
  · rfl

theorem extract_none_suffix :
    ∀ (l : Str), extract_gtin_from_url l = none →
      ∀ s, s <:+ l → gtinMatchAt s = none := by
  intro l
  induction l with
  | nil =>
    intro _ s hs
    rw [List.suffix_nil.mp hs]
    rfl
  | cons c cs ih =>
    intro h s hs
    unfold extract_gtin_from_url at h
    cases hm : gtinMatchAt (c :: cs) with
    | some g => rw [hm] at h; simp at h
    | none =>
      rw [hm] at h
      obtain ⟨p, hp⟩ := hs
      cases p with
      | nil =>
        simp only [List.nil_append] at hp
        rw [hp]
        exact hm
      | cons d ds =>
        apply ih h
        refine ⟨ds, ?_⟩
        simp only [List.cons_append, List.cons.injEq] at hp
        exact hp.2

theorem rstripSlash_decomp (s : Str) : ∃ r, s = rstripSlash s ++ r := by
  refine ⟨(s.reverse.takeWhile (fun c => c == '/')).reverse, ?_⟩
  unfold rstripSlash
  rw [← List.reverse_append, List.takeWhile_append_dropWhile, List.reverse_reverse]

theorem gtinMatchAt_append_long (s t : Str) (h : 18 ≤ s.length) :
    gtinMatchAt (s ++ t) = gtinMatchAt s := by
  rcases s with _ | ⟨a, s1⟩
  · simp at h
  rcases s1 with _ | ⟨b, s2⟩
  · simp at h
  rcases s2 with _ | ⟨c, s3⟩
  · simp at h
  rcases s3 with _ | ⟨d, s4⟩
  · simp at h
  have h14 : 14 ≤ s4.length := by
    simp only [List.length_cons] at h
    omega
  by_cases hall : a = '/' ∧ b = '0' ∧ c = '1' ∧ d = '/'
  · obtain ⟨rfl, rfl, rfl, rfl⟩ := hall
    show gtinMatchAt ('/' :: '0' :: '1' :: '/' :: (s4 ++ t)) = _
    rw [gtinMatchAt_cons_eq, gtinMatchAt_cons_eq]
    rw [List.take_append_eq_append_take,
        Nat.sub_eq_zero_of_le h14, List.take_zero, List.append_nil]
  · show gtinMatchAt (a :: b :: c :: d :: (s4 ++ t)) = _
    rw [gtinMatchAt_mismatch a b c d _ hall, gtinMatchAt_mismatch a b c d _ hall]

theorem gtinMatchAt_short_append (w : Str) :
    ∀ (s : Str), s ≠ [] → s.length < 18 →
      gtinMatchAt (s ++ ('/' :: '0' :: '1' :: '/' :: w)) = none := by
  intro s hne hlen
  rcases s with _ | ⟨a, s1⟩
  · exact absurd rfl hne
  rcases s1 with _ | ⟨b, s2⟩
  · exact gtinMatchAt_mismatch _ _ _ _ _ (by rintro ⟨-, h2, -, -⟩; exact absurd h2 (by decide))
  rcases s2 with _ | ⟨c, s3⟩
  · exact gtinMatchAt_mismatch _ _ _ _ _ (by rintro ⟨-, -, h3, -⟩; exact absurd h3 (by decide))
  rcases s3 with _ | ⟨d, s4⟩
  · by_cases habc : a = '/' ∧ b = '0' ∧ c = '1'
    · obtain ⟨rfl, rfl, rfl⟩ := habc
      show gtinMatchAt ('/' :: '0' :: '1' :: '/' :: ('0' :: '1' :: '/' :: w)) = none
      rw [gtinMatchAt_cons_eq]
      simp [List.take_succ_cons, isDigitChar]
    · exact gtinMatchAt_mismatch _ _ _ _ _ (fun hc => habc ⟨hc.1, hc.2.1, hc.2.2.1⟩)
  · have hs4 : s4.length ≤ 13 := by
      simp only [List.length_cons] at hlen
      omega
    by_cases hall : a = '/' ∧ b = '0' ∧ c = '1' ∧ d = '/'
    · obtain ⟨rfl, rfl, rfl, rfl⟩ := hall
      show gtinMatchAt
        ('/' :: '0' :: '1' :: '/' :: (s4 ++ ('/' :: '0' :: '1' :: '/' :: w))) = none
      rw [gtinMatchAt_cons_eq]
      rw [List.take_append_eq_append_take, List.take_of_length_le (by omega)]
      obtain ⟨m, hm⟩ : ∃ m, 14 - s4.length = m + 1 := ⟨13 - s4.length, by omega⟩
      rw [hm, List.take_succ_cons]
      simp [isDigitChar]
    · exact gtinMatchAt_mismatch _ _ _ _ _ hall

theorem extract_append_gtin (g t : Str) (hg : g.length = 14)
    (hgd : g.all isDigitChar = true) :
    ∀ (b : Str),
      (∀ s, s <:+ b → s ≠ [] →
        gtinMatchAt (s ++ ('/' :: '0' :: '1' :: '/' :: (g ++ t))) = none) →
      extract_gtin_from_url (b ++ ('/' :: '0' :: '1' :: '/' :: (g ++ t))) = some g := by
  intro b
  induction b with
  | nil =>
    intro _
    have htake : (g ++ t).take 14 = g := List.take_left' hg
    have hm : gtinMatchAt ('/' :: '0' :: '1' :: '/' :: (g ++ t)) = some g := by
      rw [gtinMatchAt_cons_eq, htake, hg, hgd]
      rfl
    show extract_gtin_from_url ('/' :: '0' :: '1' :: '/' :: (g ++ t)) = some g
    unfold extract_gtin_from_url
    rw [hm]
  | cons c b' ih =>
    intro hb
    have hm := hb (c :: b') (List.suffix_refl _) (by simp)
    show extract_gtin_from_url
      (c :: (b' ++ ('/' :: '0' :: '1' :: '/' :: (g ++ t)))) = some g
    unfold extract_gtin_from_url
    rw [show ((c :: b') ++ ('/' :: '0' :: '1' :: '/' :: (g ++ t)))
        = c :: (b' ++ ('/' :: '0' :: '1' :: '/' :: (g ++ t))) from rfl] at hm
    rw [hm]
    exact ih (fun s hs hs0 => hb s (hs.trans (List.suffix_cons c b')) hs0)

theorem normalize_ok_shape (c g : Str) (h : normalize_gtin c = .ok g) :
    g.length = 14 ∧ g.all isDigitChar = true := by
  unfold normalize_gtin at h
  dsimp only at h
  split at h
  · rename_i hlen
    split at h
    · simp only [Except.ok.injEq] at h
      subst h
      constructor
      · simp only [zfill14, List.length_append, List.length_replicate]
        omega
      · simp only [zfill14, List.all_append, Bool.and_eq_true]
        constructor
        · simp [List.all_replicate, isDigitChar]
        · rw [List.all_eq_true]
          intro x hx
          exact (List.mem_filter.mp (by simpa [stripNonDigits] using hx)).2
    · simp at h
  · simp at h

/-! ## Claim theorems -/

/-- C7: `generate_product_id` is deterministic (it is embedded as a pure
function, so two applications to identical arguments are definitionally the
same value), appending a trailing slash to the base URI does not change the
result, and
`generate_product_id("https://example.com", "12345678901231")` equals
`"https://example.com/01/12345678901231"`. -/
theorem generate_product_id_deterministic_slash_invariant :
    (∀ (base code : Str) (serial lot : Option Str),
      generate_product_id (base ++ ['/']) code serial lot =
        generate_product_id base code serial lot) ∧
    generate_product_id ("https://example.com".toList) ("12345678901231".toList)
      = .ok ("https://example.com/01/12345678901231".toList) := by
  constructor
  · intro base code serial lot
    simp only [generate_product_id, rstripSlash_append_slash]
  · rfl

/-- C3: for every input string whose non-digit-stripped form is 8, 12, 13 or
14 digits long, if the GS1 mod-10 check digit is correct then
`normalize_gtin` returns the 14-digit zero-padded string, on which
`validate_gtin_check_digit` returns true; if the check digit is incorrect it
fails with the invalid-checksum error; and for any other stripped length it
fails with the invalid-format error. -/
theorem normalize_gtin_spec (s : Str) :
    (((stripNonDigits s).length = 8 ∨ (stripNonDigits s).length = 12 ∨
      (stripNonDigits s).length = 13 ∨ (stripNonDigits s).length = 14) →
      (gs1CheckCorrect (stripNonDigits s) = true →
        normalize_gtin s = .ok (zfill14 (stripNonDigits s)) ∧
        (zfill14 (stripNonDigits s)).length = 14 ∧
        validate_gtin_check_digit (zfill14 (stripNonDigits s)) = true) ∧
      (gs1CheckCorrect (stripNonDigits s) = false →
        normalize_gtin s =
          .error (.invalidChecksum (zfill14 (stripNonDigits s))))) ∧
    (¬ ((stripNonDigits s).length = 8 ∨ (stripNonDigits s).length = 12 ∨
        (stripNonDigits s).length = 13 ∨ (stripNonDigits s).length = 14) →
      normalize_gtin s = .error (.invalidFormat (stripNonDigits s).length)) := by
  constructor
  · intro hlen
    have hne : stripNonDigits s ≠ [] := by
      intro h
      rw [h] at hlen
      simp at hlen
    have hle : (stripNonDigits s).length ≤ 14 := by
      rcases hlen with h | h | h | h <;> omega
    have hval := validate_zfill (stripNonDigits s) hne hle
    constructor
    · intro hok
      have hcd : validate_gtin_check_digit (zfill14 (stripNonDigits s)) = true :=
        hval.trans hok
      refine ⟨?_, ?_, hcd⟩
      · unfold normalize_gtin
        rw [if_pos hlen, if_pos hcd]
      · simp only [zfill14, List.length_append, List.length_replicate]
        omega
    · intro hbad
      unfold normalize_gtin
      rw [if_pos hlen, if_neg]
      rw [hval, hbad]
      simp
  · intro h
    unfold normalize_gtin
    rw [if_neg h]

/-- C3 (witness at a concrete valid trade code). -/
theorem normalize_gtin_spec_witness :
    normalize_gtin ("12345678901231".toList) =
      .ok (zfill14 (stripNonDigits "12345678901231".toList)) ∧
    (zfill14 (stripNonDigits "12345678901231".toList)).length = 14 ∧
    validate_gtin_check_digit
      (zfill14 (stripNonDigits "12345678901231".toList)) = true :=
  ((normalize_gtin_spec ("12345678901231".toList)).1 (by decide)).1 (by decide)

/-- C6: `generate_slug` is idempotent — re-slugifying its output is a
no-op — and its output contains only lowercase letters, digits and hyphens
(`isSlugChar`), with no two consecutive hyphens (`Chain' noDD`) and no
leading or trailing hyphen. -/
theorem generate_slug_spec (x : Str) :
    generate_slug (generate_slug x) = generate_slug x ∧
    (∀ c ∈ generate_slug x, isSlugChar c = true) ∧
    List.Chain' noDD (generate_slug x) ∧
    (generate_slug x).head? ≠ some '-' ∧
    (generate_slug x).getLast? ≠ some '-' := by
  have hmem : ∀ c ∈ generate_slug x, isSlugChar c = true := by
    intro c hc
    unfold generate_slug at hc
    have h1 := stripHyphens_subset hc
    have h2 := collapseHyphens_subset _ _ _ h1
    exact (List.mem_filter.mp h2).2
  have hchain : List.Chain' noDD (generate_slug x) := by
    unfold generate_slug
    exact stripHyphens_chain (collapseHyphens_chain _).1
  have hhd : (generate_slug x).head? ≠ some '-' := by
    unfold generate_slug
    exact stripHyphens_head? _
  have hlast : (generate_slug x).getLast? ≠ some '-' := by
    unfold generate_slug
    exact stripHyphens_getLast? _
  refine ⟨?_, hmem, hchain, hhd, hlast⟩
  conv_lhs => rw [generate_slug]
  rw [map_asciiLower_fix hmem]
  rw [subWsRun_fix false _ (fun c hc => slug_not_ws (hmem c hc))]
  rw [List.filter_eq_self.mpr hmem]
  rw [(collapseHyphens_fix _ hchain).1]
  exact stripHyphens_fix hhd hlast

/-- C6 (witness at a concrete input). -/
theorem generate_slug_spec_witness :
    generate_slug (generate_slug "  Acme  Corp_x!!".toList) =
      generate_slug "  Acme  Corp_x!!".toList ∧
    isSlugChar 'a' = true :=
  ⟨(generate_slug_spec _).1,
   (generate_slug_spec "  Acme  Corp_x!!".toList).2.1 'a' (by decide)⟩

/-- C1: evaluation of the incremental-update path at a failing input.  For a
product record whose remote entity differs on the name field, the patch list
that `_generate_patches` builds internally is the expected one-element
replace list, but the function returns `None`, so `incremental_update`
counts the record as `no_changes` (not `updated`) and issues no patch call
at all. -/
theorem incremental_update_never_patches :
    patchesList [("schema:name", .jstr "OldName")] [("name", .jstr "PX")] =
      [.replaceOp "/https://schema/name" (.jstr "PX")] ∧
    generate_patches [("schema:name", .jstr "OldName")] [("name", .jstr "PX")] =
      none ∧
    incremental_update "https://example.com"
        (fun _ => some [("schema:name", .jstr "OldName")]) (fun _ => true)
        [[("gtin", .jstr "12345678901231"), ("name", .jstr "PX")]] =
      (⟨1, 0, 1, 0⟩, []) := by
  exact ⟨rfl, rfl, rfl⟩

/-- C5 (counterexample): an entity whose `@type` is absent from the shape
table but which lacks `@context` gets `valid = false` from `validate`, not
`valid = true` as the claim states (the unknown-type early return reports
`len(errors) == 0`, and the context check has already recorded an error). -/
theorem validate_unknown_type_counterexample :
    validate (.jobj [("@type", .jstr "CustomThing")]) false =
      .ok ⟨false, ["Missing @context"],
           ["No SHACL shape defined for type: CustomThing"]⟩ := by
  rfl

/-- C5 (amended): for every entity with a recognized `@context`, whose
`@type` is a nonempty string not in the shape table, `validate` returns
`valid = true`, an empty error list and exactly the one warning naming the
unknown type — in particular no required-field or constraint check is
performed. -/
theorem validate_unknown_type_amended (fields : Obj) (strict : Bool)
    (t : String)
    (hctx : getO fields "@context" = some (.jstr "https://schema.org") ∨
            getO fields "@context" = some (.jstr "http://schema.org"))
    (htype : getO fields "@type" = some (.jstr t))
    (hne : t ≠ "")
    (hunk : t ∉ shapeTypes) :
    validate (.jobj fields) strict =
      .ok ⟨true, [], ["No SHACL shape defined for type: " ++ t]⟩ := by
  have hctx0 : contextErrors fields = [] := by
    unfold contextErrors
    rcases hctx with h | h <;> rw [h] <;> rfl
  have htr : pyTruthy (.jstr t) = true := by
    dsimp only [pyTruthy]
    exact decide_eq_true hne
  unfold validate validateF
  rw [htype]
  dsimp only
  rw [htr, if_neg (by simp), if_neg hunk, hctx0]
  rfl

/-- C5 (witness for the amended claim at a concrete input). -/
theorem validate_unknown_type_amended_witness :
    validate (.jobj [("@context", .jstr "https://schema.org"),
                     ("@type", .jstr "CustomThing")]) false =
      .ok ⟨true, [], ["No SHACL shape defined for type: CustomThing"]⟩ :=
  validate_unknown_type_amended _ false "CustomThing" (Or.inl rfl) rfl
    (by decide) (by decide)

/-- C8 (counterexample): a Product-typed entity that lacks `gtin14` but
carries a non-dict `offers` member makes `validate` raise (`TypeError` on
`"@context" not in 5` inside the unconditional nested `offers` recursion)
instead of returning `valid = false` with a missing-required-field error. -/
theorem validate_product_missing_gtin14_counterexample :
    validate (.jobj [("@context", .jstr "https://schema.org"),
                     ("@type", .jstr "Product"),
                     ("name", .jstr "N"),
                     ("offers", .jnum 5)]) false = .error () := by
  rfl

/-- C8 (amended): for every Product-typed entity without a `gtin14` key on
which `validate` (non-strict) returns a result rather than raising, the
result has `valid = false` and its error list contains the
missing-required-field entry for `gtin14`. -/
theorem validate_product_missing_gtin14 (fields : Obj) (r : VRes)
    (htype : getO fields "@type" = some (.jstr "Product"))
    (hgt : getO fields "gtin14" = none)
    (hok : validate (.jobj fields) false = .ok r) :
    r.valid = false ∧ "Missing required field: gtin14" ∈ r.errors := by
  have hkey : hasKey fields "gtin14" = false := by
    rw [hasKey, hgt]; rfl
  have hmem : "Missing required field: gtin14" ∈ requiredErrors "Product" fields := by
    simp only [requiredErrors, requiredOf, List.mem_filterMap]
    exact ⟨"gtin14", by simp, by rw [hkey]; rfl⟩
  unfold validate validateF at hok
  rw [htype] at hok
  dsimp only at hok
  rw [show pyTruthy (.jstr "Product") = true from rfl] at hok
  rw [if_neg (by simp),
      if_pos (show ("Product" : String) ∈ shapeTypes by decide)] at hok
  unfold validateShapeWith at hok
  simp only [Bind.bind] at hok
  obtain ⟨o, ho, hok⟩ := except_bind_ok hok
  obtain ⟨b, hb, hok⟩ := except_bind_ok hok
  obtain ⟨ids, hid, hok⟩ := except_bind_ok hok
  simp only [pure, Except.pure, Except.ok.injEq] at hok
  subst hok
  constructor
  · simp only
    rw [List.isEmpty_eq_false_iff_exists_mem]
    exact ⟨"Missing required field: gtin14", by simp [hmem]⟩
  · simp [hmem]

/-- C8 (witness for the amended claim at a concrete input). -/
theorem validate_product_missing_gtin14_witness :
    validate (.jobj [("@context", .jstr "https://schema.org"),
                     ("@type", .jstr "Product"), ("name", .jstr "N")]) false =
      .ok ⟨false,
           ["Missing required field: @id", "Missing required field: gtin14"],
           ["Missing recommended field: description",
            "Missing recommended field: brand",
            "Missing recommended field: offers",
            "Missing recommended field: image"]⟩ ∧
    (false = false ∧ "Missing required field: gtin14" ∈
      ["Missing required field: @id", "Missing required field: gtin14"]) := by
  refine ⟨rfl, ?_⟩
  have h := validate_product_missing_gtin14
    [("@context", .jstr "https://schema.org"),
     ("@type", .jstr "Product"), ("name", .jstr "N")]
    ⟨false,
     ["Missing required field: @id", "Missing required field: gtin14"],
     ["Missing recommended field: description",
      "Missing recommended field: brand",
      "Missing recommended field: offers",
      "Missing recommended field: image"]⟩ rfl rfl rfl
  exact h

/-- C4: after one completed `get_or_create_brand` call from an empty cache,
a second sequential call with the same argument issues no remote call at
all, leaves the cache unchanged, and returns a Brand record whose `@id` is
exactly the identifier the first call cached (which is also the `@id` the
first call returned); hence two sequential calls perform at most one remote
existence/creation sequence in total. -/
theorem get_or_create_brand_cached (client : BrandClient) (ds : String)
    (bd : JVal) (b1 c1 : Obj) (l1 : List BrandCall)
    (h : get_or_create_brand client ds [] bd = .ok (b1, c1, l1)) :
    ∃ s iri,
      getO c1 s = some iri ∧
      getO b1 "@id" = some iri ∧
      get_or_create_brand client ds c1 bd = .ok (mkBrandResult iri s, c1, []) := by
  unfold get_or_create_brand at h
  simp only [Bind.bind, Except.bind] at h
  cases bd with
  | jnull => exact absurd h (by simp)
  | jbool b => exact absurd h (by simp)
  | jnum n => exact absurd h (by simp)
  | jarr a => exact absurd h (by simp)
  | jstr s =>
    dsimp only at h
    by_cases hs : s = ""
    · subst hs
      simp [pyTruthy] at h
    · rw [show pyTruthy (.jstr s) = true from by
        dsimp only [pyTruthy]; exact decide_eq_true hs] at h
      simp only [Bool.not_true, Bool.false_eq_true, reduceIte] at h
      rw [show getO ([] : Obj) s = none from rfl] at h
      dsimp only at h
      obtain ⟨iri, hciri, hbid, hb, hc⟩ :=
        gocb_miss_aux client ds s [("name", .jstr s)] b1 c1 l1 hs h
      exact ⟨s, iri, hciri, hbid,
        gocb_jstr_cachehit client ds c1 s iri hs hciri⟩
  | jobj o =>
    dsimp only at h
    cases hnv : (getO o "name").getD .jnull with
    | jstr s =>
      rw [hnv] at h
      by_cases hs : s = ""
      · subst hs
        simp [pyTruthy] at h
      · rw [show pyTruthy (.jstr s) = true from by
          dsimp only [pyTruthy]; exact decide_eq_true hs] at h
        simp only [Bool.not_true, Bool.false_eq_true, reduceIte] at h
        rw [show getO ([] : Obj) s = none from rfl] at h
        dsimp only at h
        obtain ⟨iri, hciri, hbid, hb, hc⟩ :=
          gocb_miss_aux client ds s o b1 c1 l1 hs h
        exact ⟨s, iri, hciri, hbid,
          gocb_jobj_cachehit client ds c1 o s iri hnv hs hciri⟩
    | jnull => rw [hnv] at h; simp [pyTruthy] at h
    | jbool b =>
      rw [hnv] at h
      cases b <;> simp [pyTruthy] at h
    | jnum n =>
      rw [hnv] at h
      cases hb : pyTruthy (.jnum n) <;> rw [hb] at h <;> simp at h
    | jarr a =>
      rw [hnv] at h
      cases hb : pyTruthy (.jarr a) <;> rw [hb] at h <;> simp at h
    | jobj o2 =>
      rw [hnv] at h
      cases hb : pyTruthy (.jobj o2) <;> rw [hb] at h <;> simp at h


/-- C4 (witness at a concrete client and brand name). -/
theorem get_or_create_brand_cached_witness :
    ∃ s iri,
      getO [("Nike", JVal.jstr "https://example.com/brand/nike")] s = some iri ∧
      getO (mkBrandResult (.jstr "https://example.com/brand/nike") "Nike") "@id"
        = some iri ∧
      get_or_create_brand ⟨fun _ => none, fun _ => [], fun _ => true⟩
          "https://example.com"
          [("Nike", JVal.jstr "https://example.com/brand/nike")] (.jstr "Nike") =
        .ok (mkBrandResult iri s,
             [("Nike", JVal.jstr "https://example.com/brand/nike")], []) :=
  get_or_create_brand_cached ⟨fun _ => none, fun _ => [], fun _ => true⟩
    "https://example.com" (.jstr "Nike")
    (mkBrandResult (.jstr "https://example.com/brand/nike") "Nike")
    [("Nike", JVal.jstr "https://example.com/brand/nike")]
    [.getEntity "https://example.com/brand/nike", .gqlQuery "Nike",
     .createEntity [("@context", .jstr "https://schema.org"),
                    ("@type", .jstr "Brand"),
                    ("@id", .jstr "https://example.com/brand/nike"),
                    ("name", .jstr "Nike")]]
    (by rfl)

/-- C2: for every run of `sync_products` (validation enabled) whose snapshot
contains code X and whose two-record input builds one valid entity carrying
X and one valid entity carrying a code Y absent from the snapshot, the run
dispatches exactly one batch-create call, containing exactly Y's entity,
and exactly one batch-update call, containing exactly X's entity — the call
log is precisely those two calls — and the two payloads are disjoint
(`e1 ≠ e2`). -/
theorem sync_products_create_update_split (ds : String)
    (snapshot : List String) (oracle : Nat → Bool) (p1 p2 e1 e2 : Obj)
    (X Y : String) (r1 r2 : VRes) (bs : Nat)
    (hb1 : create_product_from_scraped_data ds p1 = .ok e1)
    (hb2 : create_product_from_scraped_data ds p2 = .ok e2)
    (hg1 : getO e1 "gtin14" = some (.jstr X))
    (hg2 : getO e2 "gtin14" = some (.jstr Y))
    (hX : X ∈ snapshot) (hY : Y ∉ snapshot)
    (hv1 : validate (.jobj e1) false = .ok r1) (hval1 : r1.valid = true)
    (hv2 : validate (.jobj e2) false = .ok r2) (hval2 : r2.valid = true)
    (hbs : 2 ≤ bs) :
    (∃ stats, sync_products ds snapshot true oracle [p1, p2] bs =
      .ok (stats, [.batchCreate [e2], .batchUpdate [e1]])) ∧ e1 ≠ e2 := by
  have hxy : X ≠ Y := fun hc => hY (hc ▸ hX)
  have hne : e1 ≠ e2 := by
    intro hc
    rw [hc, hg2] at hg1
    exact hxy (JVal.jstr.inj (Option.some.inj hg1)).symm
  refine ⟨?_, hne⟩
  have hc1 := classifyRecord_eq ds snapshot p1 e1 X hb1 hg1
  have hc2 := classifyRecord_eq ds snapshot p2 e2 Y hb2 hg2
  rw [decide_eq_true hX] at hc1
  rw [decide_eq_false hY] at hc2
  unfold sync_products
  rw [chunksOf_two bs hbs p1 p2]
  unfold runBatches
  simp only [Bind.bind, Except.bind]
  unfold processBatch
  simp only [List.map_cons, List.map_nil, hc1, hc2]
  simp only [validate_batch, batchRows, Bind.bind, Except.bind, hv1, hv2]
  simp [hval1, hval2, dispatch, pure, Except.pure]
  cases ho0 : oracle 0 <;> cases ho1 : oracle 1 <;>
    simp [runBatches, dispatch, ho0, ho1, pure, Except.pure]


/-- C2 (witness at a concrete snapshot and two concrete records). -/
theorem sync_products_create_update_split_witness :
    (∃ stats,
      sync_products "https://example.com" ["12345678901231"] true
          (fun _ => true)
          [[("gtin", .jstr "12345678901231"), ("name", .jstr "PX")],
           [("gtin", .jstr "00000000000000"), ("name", .jstr "PY")]] 50 =
        .ok (stats,
          [.batchCreate [[("@context", .jstr "https://schema.org"),
                          ("@type", .jstr "Product"),
                          ("@id", .jstr "https://example.com/01/00000000000000"),
                          ("gtin14", .jstr "00000000000000"),
                          ("name", .jstr "PY")]],
           .batchUpdate [[("@context", .jstr "https://schema.org"),
                          ("@type", .jstr "Product"),
                          ("@id", .jstr "https://example.com/01/12345678901231"),
                          ("gtin14", .jstr "12345678901231"),
                          ("name", .jstr "PX")]]])) ∧
    [("@context", JVal.jstr "https://schema.org"),
     ("@type", JVal.jstr "Product"),
     ("@id", JVal.jstr "https://example.com/01/12345678901231"),
     ("gtin14", JVal.jstr "12345678901231"),
     ("name", JVal.jstr "PX")] ≠
    [("@context", JVal.jstr "https://schema.org"),
     ("@type", JVal.jstr "Product"),
     ("@id", JVal.jstr "https://example.com/01/00000000000000"),
     ("gtin14", JVal.jstr "00000000000000"),
     ("name", JVal.jstr "PY")] :=
  sync_products_create_update_split "https://example.com" ["12345678901231"]
    (fun _ => true)
    [("gtin", .jstr "12345678901231"), ("name", .jstr "PX")]
    [("gtin", .jstr "00000000000000"), ("name", .jstr "PY")]
    [("@context", .jstr "https://schema.org"),
     ("@type", .jstr "Product"),
     ("@id", .jstr "https://example.com/01/12345678901231"),
     ("gtin14", .jstr "12345678901231"), ("name", .jstr "PX")]
    [("@context", .jstr "https://schema.org"),
     ("@type", .jstr "Product"),
     ("@id", .jstr "https://example.com/01/00000000000000"),
     ("gtin14", .jstr "00000000000000"), ("name", .jstr "PY")]
    "12345678901231" "00000000000000"
    ⟨true, [], ["Missing recommended field: description",
                "Missing recommended field: brand",
                "Missing recommended field: offers",
                "Missing recommended field: image"]⟩
    ⟨true, [], ["Missing recommended field: description",
                "Missing recommended field: brand",
                "Missing recommended field: offers",
                "Missing recommended field: image"]⟩
    50 (by rfl) (by rfl) (by rfl) (by rfl) (by decide) (by decide)
    (by rfl) (by rfl) (by rfl) (by rfl) (by decide)



/-- C9: for every run of `sync_products` (any snapshot, validation flag,
call-outcome oracle, record list, and positive batch size) that returns a
statistics record rather than raising, the statistics satisfy
`created + updated + errors = total` and `skipped = 0`: every input record
is counted in exactly one of the three outcome counters. -/
theorem sync_products_stats_accounting (ds : String) (snapshot : List String)
    (ev : Bool) (oracle : Nat → Bool) (products_data : List Obj)
    (batch_size : Nat) (stats : SyncStats) (log : List SyncCall)
    (hbs : 0 < batch_size)
    (h : sync_products ds snapshot ev oracle products_data batch_size =
      .ok (stats, log)) :
    stats.created + stats.updated + stats.errors = stats.total ∧
    stats.skipped = 0 := by
  unfold sync_products at h
  simp only [Bind.bind] at h
  obtain ⟨r, hr, h⟩ := except_bind_ok h
  simp only [pure, Except.pure, Except.ok.injEq] at h
  obtain ⟨hsum, htot, hskip⟩ := runBatches_delta ds snapshot ev oracle
    (chunksOf batch_size products_data)
    (⟨products_data.length, 0, 0, 0, 0⟩, 0, []) r hr
  have hflat : (chunksOf batch_size products_data).flatten = products_data :=
    chunksOf_join batch_size products_data hbs
  have h1 := congrArg Prod.fst h
  try dsimp only at h1
  subst h1
  rw [hflat] at hsum
  try dsimp only at hsum htot hskip
  refine ⟨?_, ?_⟩ <;> omega

/-- C9 (witness at a concrete three-record run with one update, one create
and one builder failure). -/
theorem sync_products_stats_accounting_witness :
    0 < 2 ∧
    ((⟨3, 1, 1, 1, 0⟩ : SyncStats).created +
        (⟨3, 1, 1, 1, 0⟩ : SyncStats).updated +
        (⟨3, 1, 1, 1, 0⟩ : SyncStats).errors =
      (⟨3, 1, 1, 1, 0⟩ : SyncStats).total ∧
      (⟨3, 1, 1, 1, 0⟩ : SyncStats).skipped = 0) :=
  ⟨by decide,
   sync_products_stats_accounting "https://example.com" ["12345678901231"]
     true (fun _ => true)
     [[("gtin", .jstr "12345678901231"), ("name", .jstr "PX")],
      [("name", .jstr "NoGtin")],
      [("gtin", .jstr "00000000000000"), ("name", .jstr "PY")]]
     2 ⟨3, 1, 1, 1, 0⟩
     [.batchUpdate [[("@context", .jstr "https://schema.org"),
                     ("@type", .jstr "Product"),
                     ("@id", .jstr "https://example.com/01/12345678901231"),
                     ("gtin14", .jstr "12345678901231"),
                     ("name", .jstr "PX")]],
      .batchCreate [[("@context", .jstr "https://schema.org"),
                     ("@type", .jstr "Product"),
                     ("@id", .jstr "https://example.com/01/00000000000000"),
                     ("gtin14", .jstr "00000000000000"),
                     ("name", .jstr "PY")]]]
     (by decide) (by rfl)⟩



/-- C10: round-trip of identifier generation and extraction.  For every
base URI in which the GS1 pattern `/01/` followed by 14 digits does not
occur (`extract_gtin_from_url` returns `None` on it), every trade code
accepted by `normalize_gtin`, and every optional serial and lot,
`extract_gtin_from_url` applied to the URL built by `generate_product_id`
returns exactly the normalized 14-digit code. -/
theorem generate_product_id_extract_roundtrip (dataset_uri code : Str)
    (serial lot : Option Str) (g url : Str)
    (hbase : extract_gtin_from_url dataset_uri = none)
    (hnorm : normalize_gtin code = .ok g)
    (hgen : generate_product_id dataset_uri code serial lot = .ok url) :
    extract_gtin_from_url url = some g := by
  obtain ⟨hg, hgd⟩ := normalize_ok_shape code g hnorm
  unfold generate_product_id at hgen
  simp only [Bind.bind] at hgen
  rw [hnorm] at hgen
  simp only [Except.bind] at hgen
  simp only [pure, Except.pure, Except.ok.injEq] at hgen
  subst hgen
  set b := rstripSlash dataset_uri with hbdef
  have hsufw : ∀ w s, s <:+ b → s ≠ [] →
      gtinMatchAt (s ++ ('/' :: '0' :: '1' :: '/' :: w)) = none := by
    intro w s hs h0
    by_cases hlen : s.length < 18
    · exact gtinMatchAt_short_append w s h0 hlen
    · have hlen18 : 18 ≤ s.length := by omega
      rw [gtinMatchAt_append_long s _ hlen18]
      obtain ⟨r, hr⟩ := rstripSlash_decomp dataset_uri
      rw [← gtinMatchAt_append_long s r hlen18]
      apply extract_none_suffix dataset_uri hbase
      obtain ⟨p, hp⟩ := hs
      refine ⟨p, ?_⟩
      rw [← List.append_assoc, hp, hbdef, ← hr]
  have hS : ∀ t1, extract_gtin_from_url
      ((b ++ ('/' :: '0' :: '1' :: '/' :: g)) ++ t1) = some g := by
    intro t1
    have heq : (b ++ ('/' :: '0' :: '1' :: '/' :: g)) ++ t1
        = b ++ ('/' :: '0' :: '1' :: '/' :: (g ++ t1)) := by
      simp [List.append_assoc]
    rw [heq]
    exact extract_append_gtin g t1 hg hgd b
      (fun s hs h0 => hsufw (g ++ t1) s hs h0)
  rcases serial with _ | sv
  · rcases lot with _ | lv
    · dsimp only
      have hx := hS []
      simpa using hx
    · dsimp only
      by_cases hlv : lv ≠ []
      · rw [if_pos hlv]
        exact hS _
      · rw [if_neg hlv]
        have hx := hS []
        simpa using hx
  · rcases lot with _ | lv
    · dsimp only
      by_cases hsv : sv ≠ []
      · rw [if_pos hsv]
        exact hS _
      · rw [if_neg hsv]
        have hx := hS []
        simpa using hx
    · dsimp only
      by_cases hsv : sv ≠ []
      · rw [if_pos hsv]
        by_cases hlv : lv ≠ []
        · rw [if_pos hlv, List.append_assoc]
          exact hS _
        · rw [if_neg hlv]
          exact hS _
      · rw [if_neg hsv]
        by_cases hlv : lv ≠ []
        · rw [if_pos hlv]
          exact hS _
        · rw [if_neg hlv]
          have hx := hS []
          simpa using hx

/-- C10 (witness at a concrete base URI, code, serial and lot). -/
theorem generate_product_id_extract_roundtrip_witness :
    (extract_gtin_from_url ("https://example.com".toList) = none ∧
     normalize_gtin ("12345678901231".toList) = .ok ("12345678901231".toList) ∧
     generate_product_id ("https://example.com".toList) ("12345678901231".toList)
         (some ("S7".toList)) (some ("L1".toList)) =
       .ok ("https://example.com/01/12345678901231/21/S7/10/L1".toList)) ∧
    extract_gtin_from_url
        ("https://example.com/01/12345678901231/21/S7/10/L1".toList) =
      some ("12345678901231".toList) :=
  ⟨⟨rfl, rfl, rfl⟩,
   generate_product_id_extract_roundtrip ("https://example.com".toList)
     ("12345678901231".toList) (some ("S7".toList)) (some ("L1".toList))
     ("12345678901231".toList)
     ("https://example.com/01/12345678901231/21/S7/10/L1".toList)
     rfl rfl rfl⟩

end WLSpec
